import Mathlib

/-!
Shallow embedding of the chiptune synthesizer voice engine
(src/src/dsp/chiptune_plugin.cpp) and proofs about its specification.

Modelling conventions:
* C `float` values are modelled as exact rationals (ℚ); every clamp and
  branch of the source is translated as written, so all boundedness /
  state-machine facts are about the source's control flow.
* C `(int)` casts of floats truncate toward zero; `c_trunc` models this.
* The transcendental library calls `powf(2, x)` and `sinf(x)` are passed
  in as function parameters (`pow2`, `sinq`): every theorem quantifies
  over them, so nothing depends on their values.
* The two opaque chip-emulation cores (Nes_Apu/Blip_Buffer and the GB APU
  wrapper) are external to the repository; the PCM they hand back to
  `v2_render_block` is passed in as a list parameter, and the register
  writes sent to them are collected in an output list.
-/

set_option maxRecDepth 8000

namespace Chiptune

/-! ## Constants from the source -/

def NES_CPU_CLOCK : ℚ := 1789773
def SAMPLE_RATE : ℚ := 44100
def MAX_VOICES : ℕ := 5

def CHIP_NES : ℕ := 0
def CHIP_GB : ℕ := 1

def ALLOC_AUTO : ℤ := 0
def ALLOC_LEAD : ℤ := 1
def ALLOC_LOCKED : ℤ := 2

def CHAN_PULSE1 : ℤ := 0
def CHAN_PULSE2 : ℤ := 1
def CHAN_TRIANGLE : ℤ := 2
def CHAN_WAVE : ℤ := 2
def CHAN_NOISE : ℤ := 3

def ENV_IDLE : ℕ := 0
def ENV_ATTACK : ℕ := 1
def ENV_DECAY : ℕ := 2
def ENV_SUSTAIN : ℕ := 3
def ENV_RELEASE : ℕ := 4

/-! ## C numeric conversions -/

/-- C cast `(int)` of a float: truncation toward zero. -/
def c_trunc (q : ℚ) : ℤ := if q < 0 then -((-q).floor) else q.floor

theorem c_trunc_eq (q : ℚ) : c_trunc q = if q < 0 then -(⌊-q⌋) else ⌊q⌋ := by
  unfold c_trunc
  rw [Rat.floor_def', Rat.floor_def', ← Rat.floor_def, ← Rat.floor_def]

theorem c_trunc_of_nonneg {q : ℚ} (h : 0 ≤ q) : c_trunc q = ⌊q⌋ := by
  rw [c_trunc_eq, if_neg (not_lt.mpr h)]

/-! ## Envelope (voice_envelope_t and env_* functions) -/

structure voice_envelope_t where
  level : ℚ
  stage : ℕ
  attack_inc : ℚ
  decay_dec : ℚ
  sustain_level : ℚ
  release_dec : ℚ
deriving DecidableEq, Repr

instance : Inhabited voice_envelope_t := ⟨⟨0, ENV_IDLE, 0, 0, 0, 0⟩⟩

def env_init : voice_envelope_t :=
  { level := 0, stage := ENV_IDLE, attack_inc := 0, decay_dec := 0,
    sustain_level := 0, release_dec := 0 }

def env_configure (env : voice_envelope_t)
    (attack_param decay_param sustain_param release_param : ℤ) : voice_envelope_t :=
  { env with
    attack_inc :=
      if attack_param ≤ 0 then 1
      else 1 / ((attack_param : ℚ) * (SAMPLE_RATE / 60)),
    decay_dec :=
      if decay_param ≤ 0 then 1
      else 1 / ((decay_param : ℚ) * (SAMPLE_RATE / 15)),
    sustain_level := (sustain_param : ℚ) / 15,
    release_dec :=
      if release_param ≤ 0 then 1
      else 1 / ((release_param : ℚ) * (SAMPLE_RATE / 15)) }

def env_gate_on (env : voice_envelope_t) : voice_envelope_t :=
  { env with stage := ENV_ATTACK }

def env_gate_off (env : voice_envelope_t) : voice_envelope_t :=
  if env.stage ≠ ENV_IDLE then { env with stage := ENV_RELEASE } else env

/-- One per-sample advance of the envelope state machine. -/
def env_process (env : voice_envelope_t) : voice_envelope_t :=
  if env.stage = ENV_ATTACK then
    let l := env.level + env.attack_inc
    if 1 ≤ l then { env with level := 1, stage := ENV_DECAY }
    else { env with level := l }
  else if env.stage = ENV_DECAY then
    let l := env.level - env.decay_dec
    if l ≤ env.sustain_level then
      let st := if 0 < env.sustain_level then ENV_SUSTAIN else ENV_IDLE
      { env with level := env.sustain_level, stage := st }
    else { env with level := l }
  else if env.stage = ENV_SUSTAIN then env
  else if env.stage = ENV_RELEASE then
    let l := env.level - env.release_dec
    if l ≤ 0 then { env with level := 0, stage := ENV_IDLE }
    else { env with level := l }
  else { env with level := 0 }

/-! ## Pitch-envelope per-block update (from the voice loop of v2_render_block) -/

/-- The per-block pitch-envelope level update performed inside the render
voice loop: while the level exceeds 0.01 and the speed parameter is
positive, subtract `level / (speed * sampleRate/60) * frames` and clamp
to zero; otherwise hold. -/
def pitch_env_step (penv_speed : ℚ) (frames : ℕ) (p : ℚ) : ℚ :=
  if p > 1/100 then
    if penv_speed > 0 then
      let decay_per_sample := p / (penv_speed * (SAMPLE_RATE / 60))
      let p' := p - decay_per_sample * (frames : ℚ)
      if p' < 0 then 0 else p'
    else p
  else p

/-! ## Frequency / period helpers -/

/-- midi_to_freq, with powf(2, x) passed in as pow2. -/
def midi_to_freq (pow2 : ℚ → ℚ) (note : ℤ) : ℚ :=
  440 * pow2 (((note : ℚ) - 69) / 12)

def nes_pulse_period (freq : ℚ) : ℤ :=
  let f := if freq < 1 then 1 else freq
  let period := c_trunc (NES_CPU_CLOCK / (16 * f) - 1 + 1/2)
  let period := if period < 0 then 0 else period
  if period > 0x7FF then 0x7FF else period

def nes_triangle_period (freq : ℚ) : ℤ :=
  let f := if freq < 1 then 1 else freq
  let period := c_trunc (NES_CPU_CLOCK / (32 * f) - 1 + 1/2)
  let period := if period < 0 then 0 else period
  if period > 0x7FF then 0x7FF else period

def nes_noise_period_from_note (note : ℤ) : ℤ :=
  let idx := 15 - (Int.tdiv (note - 68) 2)
  let idx := if idx < 0 then 0 else idx
  if idx > 15 then 15 else idx

def gb_square_freq_reg (freq : ℚ) : ℤ :=
  let f := if freq < 1 then 1 else freq
  let reg := c_trunc (2048 - 131072 / f + 1/2)
  let reg := if reg < 0 then 0 else reg
  if reg > 2047 then 2047 else reg

def gb_wave_freq_reg (freq : ℚ) : ℤ :=
  let f := if freq < 1 then 1 else freq
  let reg := c_trunc (2048 - 65536 / f + 1/2)
  let reg := if reg < 0 then 0 else reg
  if reg > 2047 then 2047 else reg

def gb_noise_table : List (ℕ × ℕ) :=
  [(13,1),(12,1),(11,1),(10,1),(9,1),(8,1),(7,1),(6,1),
   (5,1),(4,1),(3,1),(3,0),(2,1),(2,0),(1,1),(0,1)]

def gb_noise_params_from_note (note : ℤ) (short_mode : Bool) : ℕ :=
  let idx := Int.tdiv (note - 68) 2
  let idx := if idx < 0 then 0 else idx
  let idx := if idx > 15 then 15 else idx
  let e := gb_noise_table.getD idx.toNat (0, 0)
  (e.1 <<< 4) ||| (if short_mode then 0x08 else 0x00) ||| (e.2 &&& 0x07)

/-! ## Block volume computations (from v2_render_block) -/

/-- NES path: apu_vol = round-by-adding-half of level*(vol/15)*15, clamped
to 0..15, then scaled by velocity with C integer division, clamped to 15. -/
def nes_apu_vol (avg_level : ℚ) (preset_vol : ℤ) (velocity : ℤ) : ℤ :=
  let v := c_trunc (avg_level * (preset_vol : ℚ) / 15 * 15 + 1/2)
  let v := if v > 15 then 15 else v
  let v := if v < 0 then 0 else v
  let v := Int.tdiv (v * velocity) 127
  if v > 15 then 15 else v

/-- GB path: gb_vol = round of preset_vol*velocity/127, clamped to 1..15
(0 would disable the DAC).  The block-start envelope level is not used. -/
def gb_vol_calc (preset_vol : ℤ) (velocity : ℤ) : ℤ :=
  let v := c_trunc ((preset_vol : ℚ) * (velocity : ℚ) / 127 + 1/2)
  let v := if v > 15 then 15 else v
  if v < 1 then 1 else v

/-! ## Voice, parameters and instance state -/

structure voice_t where
  active : Bool
  note : ℤ
  velocity : ℤ
  channel_idx : ℤ
  channel_type : ℤ
  age : ℤ
  triggered : Bool
  env : voice_envelope_t
  pitch_env : ℚ
deriving DecidableEq, Repr

instance : Inhabited voice_t :=
  ⟨{ active := false, note := 0, velocity := 0, channel_idx := 0, channel_type := 0,
     age := 0, triggered := false, env := env_init, pitch_env := 0 }⟩

/-- The parameter vector (C float params[P_COUNT]), one named field per
ChiptuneParam index. -/
structure params_t where
  duty : ℚ
  env_attack : ℚ
  env_decay : ℚ
  env_sustain : ℚ
  env_release : ℚ
  sweep : ℚ
  vibrato_depth : ℚ
  vibrato_rate : ℚ
  noise_mode : ℚ
  wavetable : ℚ
  channel_mask : ℚ
  detune : ℚ
  volume : ℚ
  octave_transpose : ℚ
  alloc_mode : ℚ
  pitch_env_depth : ℚ
  pitch_env_speed : ℚ
deriving DecidableEq, Repr

structure chiptune_instance_t where
  chip : ℕ
  voices : List voice_t
  voice_age_counter : ℤ
  lfo_phase : ℚ
  pitch_bend_semitones : ℚ
  params : params_t
deriving DecidableEq, Repr

/-- Instance state right after v2_create_instance, for a given chip and
parameter vector (the preset load only fills in these two). -/
def mk_instance (chip : ℕ) (p : params_t) : chiptune_instance_t :=
  { chip := chip, voices := List.replicate MAX_VOICES default,
    voice_age_counter := 0, lfo_phase := 0, pitch_bend_semitones := 0, params := p }

/-! ## Voice allocation -/

/-- C test mask & (1 << ch) on a (two's-complement) int.  Channel indices
are always 0..3 in the source. -/
def mask_test (mask : ℤ) (ch : ℕ) : Bool := (mask / 2^ch) % 2 == 1

def kill_all_voices (voices : List voice_t) : List voice_t :=
  voices.map (fun v => { v with active := false, env := env_init })

def voice_in_use (voices : List voice_t) (ch : ℤ) : Bool :=
  voices.any (fun v => v.active && v.channel_idx == ch)

/-- Scan for the active voice with the smallest age (optionally restricted
to channels in the mask); returns -1 if no candidate.  Mirrors the
oldest_voice / oldest_age loops of pick_channel. -/
def oldest_voice_scan (voices : List voice_t) (restrict : Bool) (mask : ℤ) : ℤ :=
  ((List.range voices.length).foldl (fun acc i =>
    let v := voices.getD i default
    if v.active ∧ v.age < acc.2 ∧ (restrict → mask_test mask v.channel_idx.toNat) then
      ((i : ℤ), v.age)
    else acc) ((-1 : ℤ), (0x7FFFFFFF : ℤ))).1

def first_masked_channel (mask : ℤ) : ℤ :=
  match (List.range 4).find? (fun ch => mask_test mask ch) with
  | some ch => (ch : ℤ)
  | none => 0

def pick_channel (inst : chiptune_instance_t) (note : ℤ) : ℤ :=
  let mask := c_trunc inst.params.channel_mask
  let alloc := c_trunc inst.params.alloc_mode
  if alloc = ALLOC_LOCKED then
    match (List.range 4).find? (fun ch =>
        mask_test mask ch && !voice_in_use inst.voices ch) with
    | some ch => (ch : ℤ)
    | none =>
      let ov := oldest_voice_scan inst.voices true mask
      if ov ≥ 0 then (inst.voices.getD ov.toNat default).channel_idx
      else first_masked_channel mask
  else if alloc = ALLOC_LEAD then
    first_masked_channel mask
  else
    if note > 96 ∧ mask_test mask 3 then 3
    else
      match (List.range 2).find? (fun ch =>
          mask_test mask ch && !voice_in_use inst.voices ch) with
      | some ch => (ch : ℤ)
      | none =>
        if mask_test mask 2 ∧ ¬ voice_in_use inst.voices 2 then 2
        else if mask_test mask 3 ∧ ¬ voice_in_use inst.voices 3 then 3
        else
          let ov := oldest_voice_scan inst.voices false mask
          if ov ≥ 0 then (inst.voices.getD ov.toNat default).channel_idx
          else 0

/-- Voice-slot selection: first inactive slot, else the slot with the
globally smallest age (the C loop starts at slot 0 and uses strict <). -/
def allocate_voice (voices : List voice_t) : ℕ :=
  let i := voices.findIdx (fun v => !v.active)
  if i < voices.length then i
  else
    (List.range voices.length).foldl (fun best i =>
      if (voices.getD i default).age < (voices.getD best default).age then i else best) 0

/-! ## MIDI handlers (v2_on_midi) -/

def clamp_note (n : ℤ) : ℤ := if n < 0 then 0 else if n > 127 then 127 else n

/-- Release (gate off + immediately deactivate) every active voice whose
note matches; used by both note-off and note-on-with-velocity-0. -/
def release_matching (voices : List voice_t) (note : ℤ) : List voice_t :=
  voices.map (fun v =>
    if v.active ∧ v.note = note then { v with env := env_gate_off v.env, active := false } else v)

/-- The fresh voice record written by a note-on allocation (the unison
double uses the same shape with its own channel and age). -/
def mk_note_voice (note vel chan ctype age : ℤ) (p : params_t) : voice_t :=
  { active := true, note := note, velocity := vel, channel_idx := chan,
    channel_type := ctype, age := age, triggered := false,
    env := env_gate_on (env_configure env_init (c_trunc p.env_attack)
      (c_trunc p.env_decay) (c_trunc p.env_sustain) (c_trunc p.env_release)),
    pitch_env := p.pitch_env_depth }

/-- In LEAD mode a note-on first deactivates (and envelope-resets) every
active voice. -/
def lead_kill (voices : List voice_t) : List voice_t :=
  voices.map (fun v =>
    if v.active then { v with active := false, env := env_init } else v)

/-- Slot search for the auto-unison double: first slot other than vi that
is inactive (scanned after the first voice was written). -/
def unison_slot (voices1 : List voice_t) (vi : ℕ) : Option ℕ :=
  (List.range voices1.length).find? (fun i =>
    decide (i ≠ vi) && !(voices1.getD i default).active)

def handle_note_on (inst : chiptune_instance_t) (data1 data2 : ℤ) : chiptune_instance_t :=
  let octave := c_trunc inst.params.octave_transpose
  let alloc_mode := c_trunc inst.params.alloc_mode
  if data2 = 0 then
    let note := clamp_note (data1 + octave * 12)
    { inst with voices := release_matching inst.voices note }
  else
    let note := clamp_note (data1 + octave * 12)
    let voices0 := if alloc_mode = ALLOC_LEAD then lead_kill inst.voices else inst.voices
    let inst0 := { inst with voices := voices0 }
    let chan := pick_channel inst0 note
    let vi := allocate_voice voices0
    let ctype : ℤ :=
      if chan = 3 then CHAN_NOISE
      else if chan = 2 then (if inst.chip = CHIP_NES then CHAN_TRIANGLE else CHAN_WAVE)
      else chan
    let age1 := inst.voice_age_counter + 1
    let voices1 := voices0.set vi (mk_note_voice note data2 chan ctype age1 inst.params)
    let mask := c_trunc inst.params.channel_mask
    if inst.params.detune > 0 ∧ mask % 4 = 3 ∧ chan < 2 then
      match unison_slot voices1 vi with
      | some vi2 =>
        let chan2 : ℤ := if chan = 0 then 1 else 0
        { inst with voices := voices1.set vi2 (mk_note_voice note data2 chan2 chan2 (age1 + 1) inst.params),
                    voice_age_counter := age1 + 1 }
      | none => { inst with voices := voices1, voice_age_counter := age1 }
    else { inst with voices := voices1, voice_age_counter := age1 }

def handle_note_off (inst : chiptune_instance_t) (data1 : ℤ) : chiptune_instance_t :=
  let octave := c_trunc inst.params.octave_transpose
  let note := clamp_note (data1 + octave * 12)
  { inst with voices := release_matching inst.voices note }

def handle_cc (inst : chiptune_instance_t) (data1 data2 : ℤ) : chiptune_instance_t :=
  let inst1 :=
    if data1 = 1 then
      { inst with params :=
          { inst.params with vibrato_depth := ((c_trunc ((data2 : ℚ) * 12 / 127)) : ℚ) } }
    else inst
  if data1 = 123 ∨ data1 = 120 then
    { inst1 with voices := kill_all_voices inst1.voices }
  else inst1

def handle_pitch_bend (inst : chiptune_instance_t) (data1 data2 : ℕ) : chiptune_instance_t :=
  let bend : ℤ := (((data2 <<< 7) ||| data1 : ℕ) : ℤ) - 8192
  { inst with pitch_bend_semitones := ((bend : ℚ) / 8192) * 2 }

def v2_on_midi (inst : chiptune_instance_t) (msg : List ℕ) : chiptune_instance_t :=
  if msg.length < 2 then inst
  else
    let status := (msg.getD 0 0) &&& 0xF0
    let data1 := msg.getD 1 0
    let data2 := if msg.length > 2 then msg.getD 2 0 else 0
    if status = 0x90 then handle_note_on inst (data1 : ℤ) (data2 : ℤ)
    else if status = 0x80 then handle_note_off inst (data1 : ℤ)
    else if status = 0xB0 then handle_cc inst (data1 : ℤ) (data2 : ℤ)
    else if status = 0xE0 then handle_pitch_bend inst data1 data2
    else inst

/-! ## Register writes (NES and GB channel encoders) -/

structure reg_write_t where
  time : ℤ
  addr : ℕ
  value : ℕ
deriving DecidableEq, Repr

def nes_write_pulse (chan_idx : ℤ) (time : ℤ) (duty vol : ℤ) (freq : ℚ)
    (do_trigger : Bool) : List reg_write_t :=
  let base : ℕ := if chan_idx = 0 then 0x4000 else 0x4004
  let period := (nes_pulse_period freq).toNat
  let reg0 : ℕ := (((duty % 4).toNat) <<< 6) ||| 0x30 ||| ((vol % 16).toNat)
  [⟨time, base, reg0⟩, ⟨time + 1, base + 2, period % 256⟩] ++
    (if do_trigger then
      [⟨time + 2, base + 1, 0x00⟩,
       ⟨time + 3, base + 3, 0xF8 ||| ((period >>> 8) &&& 0x07)⟩]
    else [])

def nes_write_triangle (time : ℤ) (gate : Bool) (freq : ℚ) (do_trigger : Bool) :
    List reg_write_t :=
  let period := (nes_triangle_period freq).toNat
  let reg8 : ℕ := if gate then 0xFF else 0x80
  [⟨time, 0x4008, reg8⟩, ⟨time + 1, 0x400A, period % 256⟩] ++
    (if do_trigger then [⟨time + 2, 0x400B, 0xF8 ||| ((period >>> 8) &&& 0x07)⟩] else [])

def nes_write_noise (time : ℤ) (vol : ℤ) (note : ℤ) (short_mode : Bool)
    (do_trigger : Bool) : List reg_write_t :=
  let period_idx := (nes_noise_period_from_note note).toNat
  let regC : ℕ := 0x30 ||| ((vol % 16).toNat)
  let regE : ℕ := (if short_mode then 0x80 else 0x00) ||| (period_idx &&& 0x0F)
  [⟨time, 0x400C, regC⟩, ⟨time + 1, 0x400E, regE⟩] ++
    (if do_trigger then [⟨time + 2, 0x400F, 0xF8⟩] else [])

def nes_silence_channel (chan_idx : ℤ) (time : ℤ) : List reg_write_t :=
  if chan_idx = 0 then [⟨time, 0x4000, 0x30⟩]
  else if chan_idx = 1 then [⟨time, 0x4004, 0x30⟩]
  else if chan_idx = 2 then [⟨time, 0x4008, 0x80⟩]
  else if chan_idx = 3 then [⟨time, 0x400C, 0x30⟩]
  else []

def gb_write_square1 (time : ℤ) (duty vol : ℤ) (freq : ℚ) (sweep : ℤ)
    (do_trigger : Bool) : List reg_write_t :=
  let freq_reg := (gb_square_freq_reg freq).toNat
  if do_trigger then
    let sweep_reg : ℕ := if sweep > 0 then (((sweep % 8).toNat) <<< 4) ||| 0x02 else 0x00
    [⟨time, 0xFF12, (((vol % 16).toNat) <<< 4) ||| 0x00⟩,
     ⟨time + 1, 0xFF13, freq_reg % 256⟩,
     ⟨time + 2, 0xFF10, sweep_reg⟩,
     ⟨time + 3, 0xFF11, (((duty % 4).toNat) <<< 6) ||| 0x3F⟩,
     ⟨time + 4, 0xFF14, 0x80 ||| ((freq_reg >>> 8) &&& 0x07)⟩]
  else
    [⟨time, 0xFF13, freq_reg % 256⟩,
     ⟨time + 1, 0xFF14, (freq_reg >>> 8) &&& 0x07⟩]

def gb_write_square2 (time : ℤ) (duty vol : ℤ) (freq : ℚ) (do_trigger : Bool) :
    List reg_write_t :=
  let freq_reg := (gb_square_freq_reg freq).toNat
  if do_trigger then
    [⟨time, 0xFF17, (((vol % 16).toNat) <<< 4) ||| 0x00⟩,
     ⟨time + 1, 0xFF18, freq_reg % 256⟩,
     ⟨time + 2, 0xFF16, (((duty % 4).toNat) <<< 6) ||| 0x3F⟩,
     ⟨time + 3, 0xFF19, 0x80 ||| ((freq_reg >>> 8) &&& 0x07)⟩]
  else
    [⟨time, 0xFF18, freq_reg % 256⟩,
     ⟨time + 1, 0xFF19, (freq_reg >>> 8) &&& 0x07⟩]

def gb_write_wave (time : ℤ) (vol : ℤ) (freq : ℚ) (do_trigger : Bool) :
    List reg_write_t :=
  let freq_reg := (gb_wave_freq_reg freq).toNat
  let wave_vol : ℕ := if vol ≥ 12 then 1 else if vol ≥ 8 then 2 else if vol ≥ 4 then 3 else 0
  [⟨time, 0xFF1C, (wave_vol &&& 0x03) <<< 5⟩, ⟨time + 1, 0xFF1D, freq_reg % 256⟩] ++
    (if do_trigger then
      [⟨time + 2, 0xFF1A, 0x80⟩, ⟨time + 3, 0xFF1E, 0x80 ||| ((freq_reg >>> 8) &&& 0x07)⟩]
    else
      [⟨time + 2, 0xFF1E, (freq_reg >>> 8) &&& 0x07⟩])

def gb_write_noise (time : ℤ) (vol : ℤ) (note : ℤ) (short_mode : Bool)
    (do_trigger : Bool) : List reg_write_t :=
  let poly_reg := gb_noise_params_from_note note short_mode
  if do_trigger then
    [⟨time, 0xFF21, ((vol % 16).toNat) <<< 4⟩,
     ⟨time + 1, 0xFF22, poly_reg⟩,
     ⟨time + 2, 0xFF20, 0x3F⟩,
     ⟨time + 3, 0xFF23, 0x80⟩]
  else
    [⟨time, 0xFF22, poly_reg⟩]

def gb_silence_channel (chan_idx : ℤ) (time : ℤ) : List reg_write_t :=
  if chan_idx = 0 then [⟨time, 0xFF12, 0x00⟩, ⟨time + 1, 0xFF14, 0x80⟩]
  else if chan_idx = 1 then [⟨time, 0xFF17, 0x00⟩, ⟨time + 1, 0xFF19, 0x80⟩]
  else if chan_idx = 2 then [⟨time, 0xFF1C, 0x00⟩]
  else if chan_idx = 3 then [⟨time, 0xFF21, 0x00⟩, ⟨time + 1, 0xFF23, 0x80⟩]
  else []

/-! ## Per-voice block processing (voice loop of v2_render_block) -/

/-- The per-voice frequency computation: base note frequency, pitch bend,
pitch envelope, vibrato, and detune on channel 1. -/
def voice_freq (pow2 sinq : ℚ → ℚ) (inst : chiptune_instance_t) (v : voice_t) : ℚ :=
  let vib_depth := inst.params.vibrato_depth
  let vib_rate := inst.params.vibrato_rate
  let vib_mult : ℚ :=
    if vib_depth > 0 ∧ vib_rate > 0 then
      pow2 (sinq (inst.lfo_phase * 2 * (3.14159265 : ℚ)) * vib_depth / 1200)
    else 1
  let base := midi_to_freq pow2 v.note * pow2 (inst.pitch_bend_semitones / 12)
  let base := if v.pitch_env > 1/100 then base * pow2 (v.pitch_env / 12) else base
  let freq := base * vib_mult
  if inst.params.detune > 0 ∧ v.channel_idx = 1 then
    freq * pow2 (inst.params.detune / 1200)
  else freq

/-- State effect of one render block on one voice: advance the envelope
per-sample through the block, deactivate on Idle, otherwise decay the
pitch envelope and set the triggered flag.  Identical in the NES and GB
branches of v2_render_block. -/
def render_step_voice (penv_speed : ℚ) (frames : ℕ) (v : voice_t) : voice_t :=
  if v.active then
    let e := env_process^[frames] v.env
    if e.stage = ENV_IDLE then { v with active := false, env := e }
    else
      { v with env := e, pitch_env := pitch_env_step penv_speed frames v.pitch_env,
               triggered := true }
  else v

/-- Register writes emitted for one voice in the NES branch. -/
def nes_voice_writes (pow2 sinq : ℚ → ℚ) (inst : chiptune_instance_t)
    (frames : ℕ) (t : ℤ) (v : voice_t) : List reg_write_t :=
  if v.active then
    let e := env_process^[frames] v.env
    if e.stage = ENV_IDLE then nes_silence_channel v.channel_idx t
    else
      let duty := c_trunc inst.params.duty
      let short_mode := decide (c_trunc inst.params.noise_mode ≠ 0)
      let freq := voice_freq pow2 sinq inst v
      let apu_vol := nes_apu_vol v.env.level (c_trunc inst.params.volume) v.velocity
      if v.channel_type = CHAN_PULSE1 then
        nes_write_pulse 0 t duty apu_vol freq (!v.triggered)
      else if v.channel_type = CHAN_PULSE2 then
        nes_write_pulse 1 t duty apu_vol freq (!v.triggered)
      else if v.channel_type = CHAN_TRIANGLE then
        nes_write_triangle t (apu_vol > 0) freq (!v.triggered)
      else if v.channel_type = CHAN_NOISE then
        nes_write_noise t apu_vol v.note short_mode (!v.triggered)
      else []
  else []

def nes_voice_time_adv (frames : ℕ) (v : voice_t) : ℤ :=
  if v.active then
    let e := env_process^[frames] v.env
    if e.stage = ENV_IDLE then 2
    else if v.channel_type = CHAN_PULSE1 ∨ v.channel_type = CHAN_PULSE2 then 4
    else if v.channel_type = CHAN_TRIANGLE ∨ v.channel_type = CHAN_NOISE then 3
    else 0
  else 0

def nes_render_voices (pow2 sinq : ℚ → ℚ) (inst : chiptune_instance_t) (frames : ℕ)
    (t : ℤ) : List voice_t → List voice_t × ℤ × List reg_write_t
  | [] => ([], t, [])
  | v :: vs =>
    let w := nes_voice_writes pow2 sinq inst frames t v
    let t1 := t + nes_voice_time_adv frames v
    let rest := nes_render_voices pow2 sinq inst frames t1 vs
    (render_step_voice inst.params.pitch_env_speed frames v :: rest.1, rest.2.1, w ++ rest.2.2)

def nes_silence_unused (voices : List voice_t) (t : ℤ) : ℤ × List reg_write_t :=
  (List.range 4).foldl (fun acc ch =>
    if voice_in_use voices (ch : ℤ) then acc
    else (acc.1 + 2, acc.2 ++ nes_silence_channel (ch : ℤ) acc.1)) (t, [])

def gb_voice_writes (pow2 sinq : ℚ → ℚ) (inst : chiptune_instance_t)
    (frames : ℕ) (t : ℤ) (v : voice_t) : List reg_write_t :=
  if v.active then
    let e := env_process^[frames] v.env
    if e.stage = ENV_IDLE then gb_silence_channel v.channel_idx t
    else
      let duty := c_trunc inst.params.duty
      let sweep := c_trunc inst.params.sweep
      let short_mode := decide (c_trunc inst.params.noise_mode ≠ 0)
      let freq := voice_freq pow2 sinq inst v
      let gb_vol := gb_vol_calc (c_trunc inst.params.volume) v.velocity
      if v.channel_idx = 0 then gb_write_square1 t duty gb_vol freq sweep (!v.triggered)
      else if v.channel_idx = 1 then gb_write_square2 t duty gb_vol freq (!v.triggered)
      else if v.channel_idx = 2 then gb_write_wave t gb_vol freq (!v.triggered)
      else if v.channel_idx = 3 then gb_write_noise t gb_vol v.note short_mode (!v.triggered)
      else []
  else []

def gb_voice_time_adv (frames : ℕ) (v : voice_t) : ℤ :=
  if v.active then
    let e := env_process^[frames] v.env
    if e.stage = ENV_IDLE then 4
    else if v.channel_idx = 0 then (if v.triggered then 2 else 5)
    else if v.channel_idx = 1 then (if v.triggered then 2 else 4)
    else if v.channel_idx = 2 then 4
    else if v.channel_idx = 3 then (if v.triggered then 1 else 4)
    else 0
  else 0

def gb_render_voices (pow2 sinq : ℚ → ℚ) (inst : chiptune_instance_t) (frames : ℕ)
    (t : ℤ) : List voice_t → List voice_t × ℤ × List reg_write_t × ℚ × ℕ
  | [] => ([], t, [], 0, 0)
  | v :: vs =>
    let w := gb_voice_writes pow2 sinq inst frames t v
    let t1 := t + gb_voice_time_adv frames v
    let surviving := v.active ∧ (env_process^[frames] v.env).stage ≠ ENV_IDLE
    let contrib : ℚ × ℕ := if surviving then (v.env.level, 1) else (0, 0)
    let (vs1, t2, ws, lv, cnt) := gb_render_voices pow2 sinq inst frames t1 vs
    (render_step_voice inst.params.pitch_env_speed frames v :: vs1, t2,
     w ++ ws, contrib.1 + lv, contrib.2 + cnt)

def gb_silence_unused (voices : List voice_t) (t : ℤ) : ℤ × List reg_write_t :=
  (List.range 4).foldl (fun acc ch =>
    if voice_in_use voices (ch : ℤ) then acc
    else (acc.1 + 4, acc.2 ++ gb_silence_channel (ch : ℤ) acc.1)) (t, [])

/-! ## Block renderer (v2_render_block) -/

/-- The C while loop wrapping the LFO phase back into [0,1). -/
def advance_lfo (vib_rate lfo_phase : ℚ) (frames : ℕ) : ℚ :=
  if vib_rate > 0 then
    let x := lfo_phase + vib_rate * (frames : ℚ) / SAMPLE_RATE
    if x ≥ 1 then x - ((x.floor : ℤ) : ℚ) else x
  else lfo_phase

def clamp16 (x : ℤ) : ℤ :=
  if x > 32767 then 32767 else if x < -32768 then -32768 else x

/-- Output stage of the NES branch: the buffer is first zeroed, then the
first min(avail, frames) mono core samples are scaled by 6, clamped and
duplicated to stereo. -/
def nes_output (core_mono : List ℤ) (frames : ℕ) : List ℤ :=
  let avail := core_mono.length
  let to_read := if avail < frames then avail else frames
  ((List.range frames).map (fun s =>
    if s < to_read then
      let sample := clamp16 (core_mono.getD s 0 * 6)
      [sample, sample]
    else [0, 0])).flatten

/-- Output stage of the GB branch: zeroed buffer, then stereo core samples
scaled by 6 and by the software envelope scale, truncated and clamped. -/
def gb_output (core_stereo : List ℤ) (frames : ℕ) (env_scale : ℚ) : List ℤ :=
  let avail := core_stereo.length
  let stereo_shorts := if avail < 2 * frames then avail else 2 * frames
  let sample_pairs := stereo_shorts / 2
  ((List.range frames).map (fun s =>
    if s < sample_pairs then
      [clamp16 (c_trunc ((core_stereo.getD (2 * s) 0 : ℚ) * 6 * env_scale)),
       clamp16 (c_trunc ((core_stereo.getD (2 * s + 1) 0 : ℚ) * 6 * env_scale))]
    else [0, 0])).flatten

/-- One render call.  `core_mono` / `core_stereo` are the PCM samples the
opaque chip cores hand back for this block; the returned components are
the new instance state, the register writes sent to the active chip core,
and the interleaved stereo output buffer. -/
def v2_render_block (pow2 sinq : ℚ → ℚ) (core_mono core_stereo : List ℤ)
    (inst? : Option chiptune_instance_t) (frames : ℕ) :
    Option chiptune_instance_t × List reg_write_t × List ℤ :=
  match inst? with
  | none => (none, [], List.replicate (2 * frames) 0)
  | some inst =>
    if inst.chip = CHIP_NES then
      let (voices1, t1, ws) := nes_render_voices pow2 sinq inst frames 1 inst.voices
      let sil := nes_silence_unused voices1 t1
      let lfo1 := advance_lfo inst.params.vibrato_rate inst.lfo_phase frames
      (some { inst with voices := voices1, lfo_phase := lfo1 },
       ⟨0, 0x4015, 0x0F⟩ :: (ws ++ sil.2),
       nes_output core_mono frames)
    else
      let (voices1, t1, ws, lv, cnt) := gb_render_voices pow2 sinq inst frames 0 inst.voices
      let sil := gb_silence_unused voices1 t1
      let lfo1 := advance_lfo inst.params.vibrato_rate inst.lfo_phase frames
      let env_scale : ℚ := if cnt > 0 then lv / (cnt : ℚ) else 1
      (some { inst with voices := voices1, lfo_phase := lfo1 },
       ws ++ sil.2,
       gb_output core_stereo frames env_scale)

/-! ## Event sequences -/

/-- An externally observable operation on a live instance: a raw MIDI
message or one block-render call (with the PCM the opaque chip core
returns for that block). -/
inductive event_t where
  | midi (msg : List ℕ) : event_t
  | render (frames : ℕ) (core_mono core_stereo : List ℤ) : event_t
deriving DecidableEq, Repr

def step_event (pow2 sinq : ℚ → ℚ) (inst : chiptune_instance_t) : event_t → chiptune_instance_t
  | event_t.midi msg => v2_on_midi inst msg
  | event_t.render frames cm cs =>
    match (v2_render_block pow2 sinq cm cs (some inst) frames).1 with
    | some inst1 => inst1
    | none => inst

def run_events (pow2 sinq : ℚ → ℚ) (inst : chiptune_instance_t)
    (evs : List event_t) : chiptune_instance_t :=
  evs.foldl (step_event pow2 sinq) inst

/-! ## Helper lemmas about the render voice loop -/

theorem nes_render_voices_voices (pow2 sinq : ℚ → ℚ) (inst : chiptune_instance_t)
    (frames : ℕ) (t : ℤ) (vs : List voice_t) :
    (nes_render_voices pow2 sinq inst frames t vs).1 =
      vs.map (render_step_voice inst.params.pitch_env_speed frames) := by
  induction vs generalizing t with
  | nil => simp [nes_render_voices]
  | cons v vs ih => simp [nes_render_voices, ih]

theorem gb_render_voices_voices (pow2 sinq : ℚ → ℚ) (inst : chiptune_instance_t)
    (frames : ℕ) (t : ℤ) (vs : List voice_t) :
    (gb_render_voices pow2 sinq inst frames t vs).1 =
      vs.map (render_step_voice inst.params.pitch_env_speed frames) := by
  induction vs generalizing t with
  | nil => simp [gb_render_voices]
  | cons v vs ih => simp [gb_render_voices, ih]

/-- State effect of a successful render call: every voice is advanced by
render_step_voice, and the LFO phase advances; nothing else changes. -/
theorem v2_render_block_state (pow2 sinq : ℚ → ℚ) (cm cs : List ℤ)
    (inst : chiptune_instance_t) (frames : ℕ) :
    (v2_render_block pow2 sinq cm cs (some inst) frames).1 =
      some { inst with
              voices := inst.voices.map (render_step_voice inst.params.pitch_env_speed frames),
              lfo_phase := advance_lfo inst.params.vibrato_rate inst.lfo_phase frames } := by
  by_cases h : inst.chip = CHIP_NES
  · simp only [v2_render_block, h, if_pos]
    simp [← nes_render_voices_voices pow2 sinq inst frames 1 inst.voices]
  · simp only [v2_render_block, if_neg h]
    simp [← gb_render_voices_voices pow2 sinq inst frames 0 inst.voices]

/-! ## C7: hardware period / frequency-register ranges -/

/-- C7: for every frequency (hence for every frequency derived from any
MIDI note 0-127 under any combination of bend, vibrato, pitch envelope
and detune), the NES pulse and triangle periods lie in [0, 0x7FF] and the
GB square and wave frequency registers lie in [0, 2047]. -/
theorem C7_register_ranges (freq : ℚ) :
    (0 ≤ nes_pulse_period freq ∧ nes_pulse_period freq ≤ 0x7FF) ∧
    (0 ≤ nes_triangle_period freq ∧ nes_triangle_period freq ≤ 0x7FF) ∧
    (0 ≤ gb_square_freq_reg freq ∧ gb_square_freq_reg freq ≤ 2047) ∧
    (0 ≤ gb_wave_freq_reg freq ∧ gb_wave_freq_reg freq ≤ 2047) := by
  unfold nes_pulse_period nes_triangle_period gb_square_freq_reg gb_wave_freq_reg
  refine ⟨⟨?_, ?_⟩, ⟨?_, ?_⟩, ⟨?_, ?_⟩, ⟨?_, ?_⟩⟩ <;> (dsimp only; split_ifs <;> omega)

/-! ## C9: render with a null instance -/

/-- C9: calling the block-render entry point with a null instance writes
zeros to the entire interleaved stereo output buffer (frames * 4 bytes,
i.e. 2*frames 16-bit samples) and performs no other action: the state
stays null and no register write reaches either chip core. -/
theorem C9_null_render (pow2 sinq : ℚ → ℚ) (core_mono core_stereo : List ℤ) (frames : ℕ) :
    v2_render_block pow2 sinq core_mono core_stereo none frames =
      (none, ([] : List reg_write_t), List.replicate (2 * frames) 0) := rfl

/-! ## Envelope invariant -/

/-- Static well-formedness of the envelope configuration fields, as
established by env_init / env_configure with an in-range sustain param. -/
def env_wf (e : voice_envelope_t) : Prop :=
  0 ≤ e.attack_inc ∧ 0 ≤ e.decay_dec ∧ 0 ≤ e.release_dec ∧
  0 ≤ e.sustain_level ∧ e.sustain_level ≤ 1

/-- The envelope invariant: well-formed configuration, level in [0,1],
and a zero level whenever the stage is Idle. -/
def env_ok (e : voice_envelope_t) : Prop :=
  env_wf e ∧ 0 ≤ e.level ∧ e.level ≤ 1 ∧ (e.stage = ENV_IDLE → e.level = 0)

theorem env_ok_init : env_ok env_init := by
  simp [env_ok, env_wf, env_init]

theorem env_wf_configure (e : voice_envelope_t) (a d s r : ℤ)
    (hs0 : 0 ≤ s) (hs15 : s ≤ 15) :
    env_wf (env_configure e a d s r) := by
  refine ⟨?_, ?_, ?_, ?_, ?_⟩ <;> simp only [env_configure, SAMPLE_RATE]
  · split_ifs with h
    · norm_num
    · have ha : (0 : ℚ) < (a : ℚ) := by exact_mod_cast (by omega : (0:ℤ) < a)
      positivity
  · split_ifs with h
    · norm_num
    · have hd : (0 : ℚ) < (d : ℚ) := by exact_mod_cast (by omega : (0:ℤ) < d)
      positivity
  · split_ifs with h
    · norm_num
    · have hr : (0 : ℚ) < (r : ℚ) := by exact_mod_cast (by omega : (0:ℤ) < r)
      positivity
  · have : (0 : ℚ) ≤ (s : ℚ) := by exact_mod_cast hs0
    positivity
  · have : (s : ℚ) ≤ 15 := by exact_mod_cast hs15
    rw [div_le_one (by norm_num : (0:ℚ) < 15)]
    exact this

theorem env_ok_configure (e : voice_envelope_t) (a d s r : ℤ)
    (hs0 : 0 ≤ s) (hs15 : s ≤ 15) (he : 0 ≤ e.level ∧ e.level ≤ 1)
    (hi : e.stage = ENV_IDLE → e.level = 0) :
    env_ok (env_configure e a d s r) := by
  refine ⟨env_wf_configure e a d s r hs0 hs15, ?_, ?_, ?_⟩ <;>
    simpa [env_configure] using (by tauto : 0 ≤ e.level ∧ e.level ≤ 1 ∧
      (e.stage = ENV_IDLE → e.level = 0)).elim (fun h1 h2 => by tauto)

theorem env_ok_gate_on (e : voice_envelope_t) (h : env_ok e) :
    env_ok (env_gate_on e) := by
  obtain ⟨hw, h0, h1, _⟩ := h
  exact ⟨hw, h0, h1, by simp [env_gate_on, ENV_ATTACK, ENV_IDLE]⟩

theorem env_ok_gate_off (e : voice_envelope_t) (h : env_ok e) :
    env_ok (env_gate_off e) := by
  obtain ⟨hw, h0, h1, hi⟩ := h
  unfold env_gate_off
  split_ifs with hs
  · exact ⟨hw, h0, h1, by simp [ENV_RELEASE, ENV_IDLE]⟩
  · exact ⟨hw, h0, h1, hi⟩

theorem env_ok_process (e : voice_envelope_t) (h : env_ok e) :
    env_ok (env_process e) := by
  obtain ⟨⟨ha, hd, hr, hs0, hs1⟩, h0, h1, hi⟩ := h
  simp only [env_process]
  split_ifs with c1 c2 c3 c4 c5 c6 c7 c8
  · -- attack, reached 1
    exact ⟨⟨ha, hd, hr, hs0, hs1⟩, by norm_num, by norm_num,
      fun hh => absurd (show ENV_DECAY = ENV_IDLE from hh) (by decide)⟩
  · -- attack, still rising
    refine ⟨⟨ha, hd, hr, hs0, hs1⟩, by dsimp only; linarith,
      by dsimp only; linarith [not_le.mp c2], fun hh => ?_⟩
    rw [c1] at hh
    exact absurd hh (by decide)
  · -- decay, reached sustain level, sustain positive
    exact ⟨⟨ha, hd, hr, hs0, hs1⟩, hs0, hs1,
      fun hh => absurd (show ENV_SUSTAIN = ENV_IDLE from hh) (by decide)⟩
  · -- decay, reached sustain level = 0 (AD mode, to Idle)
    exact ⟨⟨ha, hd, hr, hs0, hs1⟩, hs0, hs1, fun _ => le_antisymm (not_lt.mp c5) hs0⟩
  · -- decay, still falling
    refine ⟨⟨ha, hd, hr, hs0, hs1⟩, by dsimp only; linarith [not_le.mp c4],
      by dsimp only; linarith, fun hh => ?_⟩
    rw [c3] at hh
    exact absurd hh (by decide)
  · -- sustain
    exact ⟨⟨ha, hd, hr, hs0, hs1⟩, h0, h1, hi⟩
  · -- release, reached zero
    exact ⟨⟨ha, hd, hr, hs0, hs1⟩, le_refl 0, by norm_num, fun _ => rfl⟩
  · -- release, still falling
    refine ⟨⟨ha, hd, hr, hs0, hs1⟩, by dsimp only; linarith [not_le.mp c8],
      by dsimp only; linarith, fun hh => ?_⟩
    rw [c7] at hh
    exact absurd hh (by decide)
  · -- idle / default: level forced to 0
    exact ⟨⟨ha, hd, hr, hs0, hs1⟩, le_refl 0, by norm_num, fun _ => rfl⟩

theorem env_ok_iterate (e : voice_envelope_t) (h : env_ok e) (n : ℕ) :
    env_ok (env_process^[n] e) := by
  induction n with
  | zero => simpa using h
  | succ n ih =>
    rw [Function.iterate_succ_apply']
    exact env_ok_process _ ih

/-! ## Voice / instance invariant -/

/-- Per-voice invariant: envelope invariant plus "Idle stage implies the
voice is inactive" (observed between operations). -/
def voice_ok (v : voice_t) : Prop :=
  env_ok v.env ∧ (v.env.stage = ENV_IDLE → v.active = false)

def inst_ok (inst : chiptune_instance_t) : Prop :=
  ∀ v ∈ inst.voices, voice_ok v

theorem voice_ok_of_mem_set {vs : List voice_t} {i : ℕ} {x : voice_t}
    (hvs : ∀ v ∈ vs, voice_ok v) (hx : voice_ok x) :
    ∀ v ∈ vs.set i x, voice_ok v := by
  intro v hv
  rcases List.mem_or_eq_of_mem_set hv with h | h
  · exact hvs v h
  · exact h ▸ hx

theorem voice_ok_mk_note_voice (note vel chan ctype age : ℤ) (p : params_t)
    (hs0 : 0 ≤ c_trunc p.env_sustain) (hs15 : c_trunc p.env_sustain ≤ 15) :
    voice_ok (mk_note_voice note vel chan ctype age p) := by
  constructor
  · exact env_ok_gate_on _ (env_ok_configure env_init _ _ _ _ hs0 hs15
      (by simp [env_init]) (by simp [env_init]))
  · intro hh
    exact absurd (show ENV_ATTACK = ENV_IDLE from hh) (by decide)

theorem voice_ok_lead_kill (vs : List voice_t) (h : ∀ v ∈ vs, voice_ok v) :
    ∀ v ∈ lead_kill vs, voice_ok v := by
  intro v hv
  rcases List.mem_map.mp hv with ⟨w, hw, rfl⟩
  by_cases ha : w.active = true
  · simp only [ha, if_pos]
    exact ⟨env_ok_init, fun _ => rfl⟩
  · simp only [ha, if_neg, Bool.false_eq_true, not_false_iff]
    exact h w hw

theorem voice_ok_release_matching (vs : List voice_t) (note : ℤ)
    (h : ∀ v ∈ vs, voice_ok v) :
    ∀ v ∈ release_matching vs note, voice_ok v := by
  intro v hv
  rcases List.mem_map.mp hv with ⟨w, hw, rfl⟩
  split_ifs with hc
  · exact ⟨env_ok_gate_off _ (h w hw).1, fun _ => rfl⟩
  · exact h w hw

theorem voice_ok_kill_all (vs : List voice_t) :
    ∀ v ∈ kill_all_voices vs, voice_ok v := by
  intro v hv
  rcases List.mem_map.mp hv with ⟨w, _, rfl⟩
  exact ⟨env_ok_init, fun _ => rfl⟩

theorem voice_ok_render_step (ps : ℚ) (frames : ℕ) (v : voice_t) (h : voice_ok v) :
    voice_ok (render_step_voice ps frames v) := by
  obtain ⟨he, hia⟩ := h
  simp only [render_step_voice]
  split_ifs with h1 h2
  · exact ⟨env_ok_iterate v.env he frames, fun _ => rfl⟩
  · exact ⟨env_ok_iterate v.env he frames, fun hh => absurd hh h2⟩
  · exact ⟨he, hia⟩

/-! ## Parameter preservation across events -/

theorem handle_note_on_params (inst : chiptune_instance_t) (d1 d2 : ℤ) :
    (handle_note_on inst d1 d2).params = inst.params := by
  simp only [handle_note_on]
  split_ifs <;> first
    | rfl
    | (split <;> rfl)

theorem handle_cc_params (inst : chiptune_instance_t) (d1 d2 : ℤ) :
    (handle_cc inst d1 d2).params.env_sustain = inst.params.env_sustain ∧
    (handle_cc inst d1 d2).params.alloc_mode = inst.params.alloc_mode ∧
    (handle_cc inst d1 d2).params.detune = inst.params.detune ∧
    (handle_cc inst d1 d2).params.channel_mask = inst.params.channel_mask := by
  simp only [handle_cc]
  split_ifs <;> simp

/-- Every event preserves the parameter fields the invariants depend on
(only CC 1, the mod wheel, writes a parameter: vibrato depth). -/
theorem step_event_params (pow2 sinq : ℚ → ℚ) (inst : chiptune_instance_t)
    (ev : event_t) :
    (step_event pow2 sinq inst ev).params.env_sustain = inst.params.env_sustain ∧
    (step_event pow2 sinq inst ev).params.alloc_mode = inst.params.alloc_mode ∧
    (step_event pow2 sinq inst ev).params.detune = inst.params.detune ∧
    (step_event pow2 sinq inst ev).params.channel_mask = inst.params.channel_mask := by
  cases ev with
  | midi msg =>
    simp only [step_event, v2_on_midi]
    split_ifs <;>
      refine ⟨?_, ?_, ?_, ?_⟩ <;>
        first
          | rfl
          | trivial
          | rw [handle_note_on_params]
          | exact (handle_cc_params inst _ _).1
          | exact (handle_cc_params inst _ _).2.1
          | exact (handle_cc_params inst _ _).2.2.1
          | exact (handle_cc_params inst _ _).2.2.2
  | render frames cm cs =>
    simp [step_event, v2_render_block_state]

/-! ## Invariant preservation -/

/-- Voices of the instance after a note-on all satisfy the per-voice
invariant, for an in-range sustain parameter. -/
theorem inst_ok_note_on (inst : chiptune_instance_t) (d1 d2 : ℤ)
    (h : inst_ok inst)
    (hs0 : 0 ≤ c_trunc inst.params.env_sustain)
    (hs15 : c_trunc inst.params.env_sustain ≤ 15) :
    inst_ok (handle_note_on inst d1 d2) := by
  simp only [handle_note_on]
  split_ifs <;>
    first
      | exact voice_ok_release_matching _ _ h
      | (split <;>
          first
            | exact fun v hv => voice_ok_of_mem_set
                (voice_ok_of_mem_set (voice_ok_lead_kill _ h)
                  (voice_ok_mk_note_voice _ _ _ _ _ _ hs0 hs15))
                (voice_ok_mk_note_voice _ _ _ _ _ _ hs0 hs15) v hv
            | exact fun v hv => voice_ok_of_mem_set (voice_ok_lead_kill _ h)
                (voice_ok_mk_note_voice _ _ _ _ _ _ hs0 hs15) v hv
            | exact fun v hv => voice_ok_of_mem_set
                (voice_ok_of_mem_set h (voice_ok_mk_note_voice _ _ _ _ _ _ hs0 hs15))
                (voice_ok_mk_note_voice _ _ _ _ _ _ hs0 hs15) v hv
            | exact fun v hv => voice_ok_of_mem_set h
                (voice_ok_mk_note_voice _ _ _ _ _ _ hs0 hs15) v hv)
      | exact fun v hv => voice_ok_of_mem_set (voice_ok_lead_kill _ h)
          (voice_ok_mk_note_voice _ _ _ _ _ _ hs0 hs15) v hv
      | exact fun v hv => voice_ok_of_mem_set h
          (voice_ok_mk_note_voice _ _ _ _ _ _ hs0 hs15) v hv

theorem inst_ok_on_midi (inst : chiptune_instance_t) (msg : List ℕ)
    (h : inst_ok inst)
    (hs0 : 0 ≤ c_trunc inst.params.env_sustain)
    (hs15 : c_trunc inst.params.env_sustain ≤ 15) :
    inst_ok (v2_on_midi inst msg) := by
  have hcc : ∀ d1 d2 : ℤ, inst_ok (handle_cc inst d1 d2) := by
    intro d1 d2
    unfold handle_cc
    split_ifs
    · exact voice_ok_kill_all _
    · exact h
    · exact voice_ok_kill_all _
    · exact h
  simp only [v2_on_midi]
  split_ifs <;>
    first
      | exact h
      | exact inst_ok_note_on inst _ _ h hs0 hs15
      | exact voice_ok_release_matching _ _ h
      | exact hcc _ _

theorem inst_ok_step_event (pow2 sinq : ℚ → ℚ) (inst : chiptune_instance_t)
    (ev : event_t) (h : inst_ok inst)
    (hs0 : 0 ≤ c_trunc inst.params.env_sustain)
    (hs15 : c_trunc inst.params.env_sustain ≤ 15) :
    inst_ok (step_event pow2 sinq inst ev) := by
  cases ev with
  | midi msg => exact inst_ok_on_midi inst msg h hs0 hs15
  | render frames cm cs =>
    simp only [step_event, v2_render_block_state]
    intro v hv
    rcases List.mem_map.mp hv with ⟨w, hw, rfl⟩
    exact voice_ok_render_step _ _ _ (h w hw)

/-! ## C1: envelope level/stage invariant -/

/-- Parameter vector of factory preset 0 (NES Lead): duty 2, attack 0,
decay 3, sustain 15, release 4, channel mask 0x01, volume 15, Lead mode. -/
def preset_lead_params : params_t :=
  { duty := 2, env_attack := 0, env_decay := 3, env_sustain := 15, env_release := 4,
    sweep := 0, vibrato_depth := 0, vibrato_rate := 0, noise_mode := 0, wavetable := 0,
    channel_mask := 1, detune := 0, volume := 15, octave_transpose := 0, alloc_mode := 1,
    pitch_env_depth := 0, pitch_env_speed := 0 }

theorem inst_ok_mk_instance (chip : ℕ) (p : params_t) : inst_ok (mk_instance chip p) := by
  intro v hv
  have := List.eq_of_mem_replicate hv
  subst this
  exact ⟨env_ok_init, fun _ => rfl⟩

theorem inst_ok_run_events (pow2 sinq : ℚ → ℚ) (evs : List event_t) :
    ∀ inst : chiptune_instance_t, inst_ok inst →
      0 ≤ c_trunc inst.params.env_sustain → c_trunc inst.params.env_sustain ≤ 15 →
      inst_ok (run_events pow2 sinq inst evs) := by
  induction evs with
  | nil => intro inst hi _ _; exact hi
  | cons e es ih =>
    intro inst hi hs0 hs15
    have hp := (step_event_params pow2 sinq inst e).1
    have h1 := inst_ok_step_event pow2 sinq inst e hi hs0 hs15
    simpa [run_events] using ih _ h1 (hp ▸ hs0) (hp ▸ hs15)

/-- C1, amended: for every sequence of MIDI and render operations from a
fresh instance (with an in-range sustain parameter), every voice envelope
keeps its level in [0,1], and whenever the stage is Idle the level is 0
and the owning voice is inactive.  (The converse direction of the spec's
iff is false: see the counterexample, where a note-off puts the envelope
in Release while deactivating the voice at level 0.) -/
theorem C1_envelope_invariant (pow2 sinq : ℚ → ℚ) (chip : ℕ) (p : params_t)
    (hs0 : 0 ≤ c_trunc p.env_sustain) (hs15 : c_trunc p.env_sustain ≤ 15)
    (evs : List event_t) :
    ∀ v ∈ (run_events pow2 sinq (mk_instance chip p) evs).voices,
      0 ≤ v.env.level ∧ v.env.level ≤ 1 ∧
      (v.env.stage = ENV_IDLE → v.env.level = 0 ∧ v.active = false) := by
  intro v hv
  obtain ⟨⟨_, h0, h1, hi⟩, hia⟩ :=
    inst_ok_run_events pow2 sinq evs (mk_instance chip p)
      (inst_ok_mk_instance chip p) hs0 hs15 v hv
  exact ⟨h0, h1, fun hh => ⟨hi hh, hia hh⟩⟩

/-- Witness for C1: after a note-on and one 2-frame render on preset 0,
the invariant holds for all five voices. -/
theorem C1_envelope_invariant_witness :
    (0 ≤ c_trunc preset_lead_params.env_sustain ∧
      c_trunc preset_lead_params.env_sustain ≤ 15) ∧
    (∀ v ∈ (run_events (fun _ => 1) (fun _ => 0) (mk_instance CHIP_NES preset_lead_params)
        [event_t.midi [0x90, 60, 100], event_t.render 2 [] []]).voices,
      0 ≤ v.env.level ∧ v.env.level ≤ 1 ∧
      (v.env.stage = ENV_IDLE → v.env.level = 0 ∧ v.active = false)) :=
  ⟨⟨by with_unfolding_all decide, by with_unfolding_all decide⟩,
   C1_envelope_invariant (fun _ => 1) (fun _ => 0) CHIP_NES preset_lead_params
     (by with_unfolding_all decide) (by with_unfolding_all decide) _⟩

/-- C1 counterexample: note-on followed by note-off on preset 0 leaves
voice 0 with level 0, inactive, but stage Release (not Idle): the spec's
"stage is Idle iff level = 0 and voice inactive" fails right-to-left. -/
theorem C1_counterexample :
    ¬ (∀ v ∈ (v2_on_midi (v2_on_midi (mk_instance CHIP_NES preset_lead_params)
          [0x90, 60, 100]) [0x80, 60, 0]).voices,
        (v.env.stage = ENV_IDLE ↔ (v.env.level = 0 ∧ v.active = false))) := by
  with_unfolding_all decide

/-! ## C2: Lead mode voice count -/

def active_count (vs : List voice_t) : ℕ := (vs.filter (fun v => v.active)).length

/-- The auto-unison feature is armed whenever detune > 0 and the low two
channel-mask bits are both set. -/
def unison_enabled (p : params_t) : Prop :=
  p.detune > 0 ∧ (c_trunc p.channel_mask) % 4 = 3

instance (p : params_t) : Decidable (unison_enabled p) := by
  unfold unison_enabled; infer_instance

def lead_limit (p : params_t) : ℕ := if unison_enabled p then 2 else 1

theorem active_count_cons (v : voice_t) (vs : List voice_t) :
    active_count (v :: vs) = (if v.active = true then 1 else 0) + active_count vs := by
  unfold active_count
  rw [List.filter_cons]
  split_ifs with h <;> simp <;> omega

theorem active_count_map_le (vs : List voice_t) (f : voice_t → voice_t)
    (hf : ∀ v, (f v).active = true → v.active = true) :
    active_count (vs.map f) ≤ active_count vs := by
  induction vs with
  | nil => exact le_refl _
  | cons v vs ih =>
    rw [List.map_cons, active_count_cons, active_count_cons]
    by_cases h1 : (f v).active = true
    · rw [if_pos h1, if_pos (hf v h1)]
      omega
    · rw [if_neg h1]
      split_ifs <;> omega

theorem active_count_set_le (vs : List voice_t) (i : ℕ) (x : voice_t) :
    active_count (vs.set i x) ≤ active_count vs + 1 := by
  induction vs generalizing i with
  | nil => simp [active_count]
  | cons v vs ih =>
    cases i with
    | zero =>
      rw [List.set_cons_zero, active_count_cons, active_count_cons]
      split_ifs <;> omega
    | succ i =>
      rw [List.set_cons_succ, active_count_cons, active_count_cons]
      have := ih i
      split_ifs <;> omega

theorem active_count_le_of_all_inactive {vs : List voice_t}
    (h : ∀ v ∈ vs, v.active = false) : active_count vs = 0 := by
  unfold active_count
  rw [List.length_eq_zero, List.filter_eq_nil_iff]
  intro a ha
  simp [h a ha]

theorem lead_kill_inactive (vs : List voice_t) :
    ∀ v ∈ lead_kill vs, v.active = false := by
  intro v hv
  rcases List.mem_map.mp hv with ⟨w, _, rfl⟩
  by_cases hw : w.active = true <;> simp [hw]

theorem active_count_lead_kill (vs : List voice_t) :
    active_count (lead_kill vs) = 0 :=
  active_count_le_of_all_inactive (lead_kill_inactive vs)

/-- A note-on in Lead mode leaves at most lead_limit voices active
(1 normally, 2 when the auto-unison doubling is armed). -/
theorem lead_note_on_count (inst : chiptune_instance_t) (d1 d2 : ℤ)
    (halloc : c_trunc inst.params.alloc_mode = ALLOC_LEAD)
    (h : active_count inst.voices ≤ lead_limit inst.params) :
    active_count (handle_note_on inst d1 d2).voices ≤ lead_limit inst.params := by
  have hlim1 : 1 ≤ lead_limit inst.params := by
    unfold lead_limit; split_ifs <;> omega
  simp only [handle_note_on]
  split_ifs <;>
    first
      | -- velocity-0 release path
        exact le_trans (active_count_map_le _ _ (by intro v; split_ifs <;> simp_all)) h
      | -- condition says alloc is not LEAD: contradiction
        exact absurd halloc (by assumption)
      | -- unison branch: either a double is placed or not
        (split
         · -- two fresh voices over a fully killed pool
           have hu : unison_enabled inst.params := by
             unfold unison_enabled
             constructor <;> tauto
           have e2 : lead_limit inst.params = 2 := by
             simp [lead_limit, if_pos hu]
           rw [e2]
           refine le_trans (active_count_set_le _ _ _) ?_
           refine le_trans (Nat.add_le_add_right (active_count_set_le _ _ _) 1) ?_
           rw [active_count_lead_kill]
         · -- no free slot for the double: single fresh voice
           refine le_trans (le_trans (active_count_set_le _ _ _) ?_) hlim1
           rw [active_count_lead_kill])
      | -- single fresh voice over a fully killed pool
        (refine le_trans (le_trans (active_count_set_le _ _ _) ?_) hlim1
         rw [active_count_lead_kill])

theorem lead_step_count (pow2 sinq : ℚ → ℚ) (inst : chiptune_instance_t) (ev : event_t)
    (halloc : c_trunc inst.params.alloc_mode = ALLOC_LEAD)
    (h : active_count inst.voices ≤ lead_limit inst.params) :
    active_count (step_event pow2 sinq inst ev).voices ≤ lead_limit inst.params := by
  cases ev with
  | midi msg =>
    simp only [step_event, v2_on_midi]
    split_ifs <;>
      first
        | exact h
        | exact lead_note_on_count inst _ _ halloc h
        | exact le_trans (active_count_map_le _ _ (by intro v; split_ifs <;> simp_all)) h
        | -- CC handler
          (unfold handle_cc
           split_ifs <;>
             first
               | exact le_trans (le_of_eq (active_count_le_of_all_inactive
                   (fun v hv => by
                     rcases List.mem_map.mp hv with ⟨w, _, rfl⟩
                     rfl))) (by omega)
               | exact h)
  | render frames cm cs =>
    simp only [step_event, v2_render_block_state]
    exact le_trans (active_count_map_le _ _ (by
      intro v
      simp only [render_step_voice]
      split_ifs <;> simp_all)) h

theorem lead_run_count (pow2 sinq : ℚ → ℚ) (evs : List event_t) :
    ∀ inst : chiptune_instance_t, c_trunc inst.params.alloc_mode = ALLOC_LEAD →
      active_count inst.voices ≤ lead_limit inst.params →
      active_count (run_events pow2 sinq inst evs).voices ≤ lead_limit inst.params := by
  induction evs with
  | nil => intro inst _ h; exact h
  | cons e es ih =>
    intro inst halloc h
    obtain ⟨_, hal, hdet, hmask⟩ := step_event_params pow2 sinq inst e
    have hlim : lead_limit ((step_event pow2 sinq inst e).params) = lead_limit inst.params := by
      unfold lead_limit unison_enabled
      simp only [hdet, hmask]
    have h1 := lead_step_count pow2 sinq inst e halloc h
    have h2 := ih (step_event pow2 sinq inst e) (by rw [hal]; exact halloc)
      (by rw [hlim]; exact h1)
    simpa [run_events, hlim] using h2

/-- In Lead mode, every voice still active after a (velocity > 0) note-on
is one of the voices freshly allocated by that note-on: it carries the
incoming (transposed, clamped) note and an unset triggered flag; all
previously active voices were deactivated first. -/
theorem lead_note_on_fresh (inst : chiptune_instance_t) (d1 d2 : ℤ)
    (halloc : c_trunc inst.params.alloc_mode = ALLOC_LEAD) (hd2 : d2 ≠ 0) :
    ∀ v ∈ (handle_note_on inst d1 d2).voices, v.active = true →
      v.note = clamp_note (d1 + c_trunc inst.params.octave_transpose * 12) ∧
      v.triggered = false := by
  simp only [handle_note_on]
  split_ifs <;>
    first
      | (exfalso; exact hd2 (by assumption))
      | exact absurd halloc (by assumption)
      | -- unison branch
        (split
         · intro v hv hact
           rcases List.mem_or_eq_of_mem_set hv with hv1 | rfl
           · rcases List.mem_or_eq_of_mem_set hv1 with hv2 | rfl
             · exact absurd hact (by simp [lead_kill_inactive _ _ hv2])
             · exact ⟨rfl, rfl⟩
           · exact ⟨rfl, rfl⟩
         · intro v hv hact
           rcases List.mem_or_eq_of_mem_set hv with hv1 | rfl
           · exact absurd hact (by simp [lead_kill_inactive _ _ hv1])
           · exact ⟨rfl, rfl⟩)
      | (intro v hv hact
         rcases List.mem_or_eq_of_mem_set hv with hv1 | rfl
         · exact absurd hact (by simp [lead_kill_inactive _ _ hv1])
         · exact ⟨rfl, rfl⟩)

/-- C2, amended: with allocation mode Lead, after any sequence of MIDI and
render events at most two voices are active — at most one unless the
auto-unison doubling is armed (detune > 0 and both pulse-channel mask
bits set), in which case a note-on allocates a unison pair — and every
note-on first deactivates all currently active voices, so every active
voice after a note-on is one of that note-on's fresh allocations. -/
theorem C2_lead_mode (pow2 sinq : ℚ → ℚ) (chip : ℕ) (p : params_t)
    (halloc : c_trunc p.alloc_mode = ALLOC_LEAD) (evs : List event_t) :
    active_count (run_events pow2 sinq (mk_instance chip p) evs).voices ≤ 2 ∧
    (¬ unison_enabled p →
      active_count (run_events pow2 sinq (mk_instance chip p) evs).voices ≤ 1) ∧
    (∀ (inst : chiptune_instance_t) (d1 d2 : ℤ),
      c_trunc inst.params.alloc_mode = ALLOC_LEAD → d2 ≠ 0 →
      ∀ v ∈ (handle_note_on inst d1 d2).voices, v.active = true →
        v.note = clamp_note (d1 + c_trunc inst.params.octave_transpose * 12) ∧
        v.triggered = false) := by
  have hinit : active_count (mk_instance chip p).voices ≤ lead_limit (mk_instance chip p).params := by
    have h0 : active_count (mk_instance chip p).voices = 0 :=
      active_count_le_of_all_inactive (fun v hv => by
        have := List.eq_of_mem_replicate hv
        subst this
        rfl)
    rw [h0]
    exact Nat.zero_le _
  have hrun := lead_run_count pow2 sinq evs (mk_instance chip p) halloc hinit
  refine ⟨?_, ?_, fun inst d1 d2 ha hd2 => lead_note_on_fresh inst d1 d2 ha hd2⟩
  · exact le_trans hrun (by unfold lead_limit; split_ifs <;> omega)
  · intro hnu
    have h1 : lead_limit (mk_instance chip p).params = 1 := by
      simp [lead_limit, if_neg hnu, mk_instance]
    exact le_trans hrun (le_of_eq h1)

/-- Parameters for the C2 counterexample: Lead mode with detune 1 and
channel mask 0x03 (both pulse channels), arming auto-unison. -/
def unison_lead_params : params_t :=
  { preset_lead_params with channel_mask := 3, detune := 1 }

/-- C2 counterexample: in Lead mode with detune > 0 and mask 0x03, a
single note-on leaves TWO voices active (the unison double), refuting
"at most one voice is active ... for every detune and channel-mask
setting". -/
theorem C2_counterexample :
    c_trunc unison_lead_params.alloc_mode = ALLOC_LEAD ∧
    ¬ (active_count (v2_on_midi (mk_instance CHIP_NES unison_lead_params)
        [0x90, 60, 100]).voices ≤ 1) := by
  with_unfolding_all decide

/-- Witness for C2 at preset 0 parameters after a note-on event. -/
theorem C2_lead_mode_witness :
    c_trunc preset_lead_params.alloc_mode = ALLOC_LEAD ∧
    (active_count (run_events (fun _ => 1) (fun _ => 0)
        (mk_instance CHIP_NES preset_lead_params)
        [event_t.midi [0x90, 60, 100]]).voices ≤ 2 ∧
    (¬ unison_enabled preset_lead_params →
      active_count (run_events (fun _ => 1) (fun _ => 0)
        (mk_instance CHIP_NES preset_lead_params)
        [event_t.midi [0x90, 60, 100]]).voices ≤ 1) ∧
    (∀ (inst : chiptune_instance_t) (d1 d2 : ℤ),
      c_trunc inst.params.alloc_mode = ALLOC_LEAD → d2 ≠ 0 →
      ∀ v ∈ (handle_note_on inst d1 d2).voices, v.active = true →
        v.note = clamp_note (d1 + c_trunc inst.params.octave_transpose * 12) ∧
        v.triggered = false)) :=
  ⟨by with_unfolding_all decide,
   C2_lead_mode (fun _ => 1) (fun _ => 0) CHIP_NES preset_lead_params
     (by with_unfolding_all decide) [event_t.midi [0x90, 60, 100]]⟩

/-! ## C6: voice-slot selection and age stamps -/

/-- Age-stamp soundness: no voice carries a stamp newer than the global
counter.  Holds initially (all zero) and is preserved by every event. -/
def age_inv (inst : chiptune_instance_t) : Prop :=
  ∀ v ∈ inst.voices, v.age ≤ inst.voice_age_counter

theorem oldest_scan_min (vs : List voice_t) (is : List ℕ) (b : ℕ) :
    (vs.getD (is.foldl (fun best i =>
        if (vs.getD i default).age < (vs.getD best default).age then i else best) b)
        default).age ≤ (vs.getD b default).age ∧
    (∀ i ∈ is, (vs.getD (is.foldl (fun best i =>
        if (vs.getD i default).age < (vs.getD best default).age then i else best) b)
        default).age ≤ (vs.getD i default).age) ∧
    ((is.foldl (fun best i =>
        if (vs.getD i default).age < (vs.getD best default).age then i else best) b) = b ∨
     (is.foldl (fun best i =>
        if (vs.getD i default).age < (vs.getD best default).age then i else best) b) ∈ is) := by
  induction is generalizing b with
  | nil => exact ⟨le_refl _, by simp, Or.inl rfl⟩
  | cons i is ih =>
    simp only [List.foldl_cons]
    set b2 := if (vs.getD i default).age < (vs.getD b default).age then i else b with hb2
    have hle : (vs.getD b2 default).age ≤ (vs.getD b default).age ∧
               (vs.getD b2 default).age ≤ (vs.getD i default).age ∧ (b2 = i ∨ b2 = b) := by
      rw [hb2]
      split_ifs with hc
      · exact ⟨le_of_lt hc, le_refl _, Or.inl rfl⟩
      · exact ⟨le_refl _, not_lt.mp hc, Or.inr rfl⟩
    obtain ⟨h1, h2, h3⟩ := ih b2
    refine ⟨h1.trans hle.1, ?_, ?_⟩
    · intro j hj
      rcases List.mem_cons.mp hj with rfl | hj2
      · exact h1.trans hle.2.1
      · exact h2 j hj2
    · rcases h3 with he | hm
      · rcases hle.2.2 with hi | hb
        · refine Or.inr ?_
          rw [he, hi]
          exact List.mem_cons_self _ _
        · exact Or.inl (he.trans hb)
      · exact Or.inr (List.mem_cons_of_mem _ hm)

theorem allocate_voice_first_inactive (vs : List voice_t)
    (h : ∃ v ∈ vs, v.active = false) :
    allocate_voice vs < vs.length ∧
    (vs.getD (allocate_voice vs) default).active = false ∧
    (∀ j < allocate_voice vs, (vs.getD j default).active = true) := by
  have hex : ∃ x ∈ vs, (fun v : voice_t => !v.active) x = true := by
    obtain ⟨v, hv, ha⟩ := h
    exact ⟨v, hv, by simp [ha]⟩
  have hlt := List.findIdx_lt_length_of_exists hex
  simp only [allocate_voice]
  rw [if_pos hlt]
  refine ⟨hlt, ?_, ?_⟩
  · have hp := @List.findIdx_getElem _ (fun v : voice_t => !v.active) vs hlt
    rw [List.getD_eq_getElem _ _ hlt]
    simpa using hp
  · intro j hj
    have hj2 : j < vs.length := lt_trans hj hlt
    have hp := List.not_of_lt_findIdx hj
    rw [List.getD_eq_getElem _ _ hj2]
    simpa using hp

theorem allocate_voice_steals_oldest (vs : List voice_t)
    (hall : ∀ v ∈ vs, v.active = true) :
    ∀ j < vs.length, (vs.getD (allocate_voice vs) default).age ≤ (vs.getD j default).age := by
  intro j hj
  have hfi : vs.findIdx (fun v => !v.active) = vs.length :=
    List.findIdx_eq_length.mpr (fun x hx => by simp [hall x hx])
  simp only [allocate_voice]
  rw [hfi, if_neg (lt_irrefl _)]
  exact (oldest_scan_min vs (List.range vs.length) 0).2.1 j (List.mem_range.mpr hj)

theorem allocate_voice_lt_length (vs : List voice_t) (hne : vs ≠ []) :
    allocate_voice vs < vs.length := by
  have hlen : 0 < vs.length := List.length_pos.mpr hne
  simp only [allocate_voice]
  split_ifs with h
  · exact h
  · rcases (oldest_scan_min vs (List.range vs.length) 0).2.2 with he | hm
    · rw [he]; exact hlen
    · exact List.mem_range.mp hm

theorem lead_kill_ages (vs : List voice_t) (c : ℤ) (h : ∀ v ∈ vs, v.age ≤ c) :
    ∀ v ∈ lead_kill vs, v.age ≤ c := by
  intro v hv
  rcases List.mem_map.mp hv with ⟨w, hw, rfl⟩
  split_ifs <;> exact h w hw

theorem release_matching_ages (vs : List voice_t) (note : ℤ) (c : ℤ)
    (h : ∀ v ∈ vs, v.age ≤ c) :
    ∀ v ∈ release_matching vs note, v.age ≤ c := by
  intro v hv
  rcases List.mem_map.mp hv with ⟨w, hw, rfl⟩
  split_ifs <;> exact h w hw

theorem handle_note_on_counter (inst : chiptune_instance_t) (d1 d2 : ℤ) :
    inst.voice_age_counter ≤ (handle_note_on inst d1 d2).voice_age_counter := by
  simp only [handle_note_on]
  split_ifs <;>
    first
      | exact le_refl _
      | (split <;>
          first
            | exact (by omega : inst.voice_age_counter ≤ inst.voice_age_counter + 1)
            | exact (by omega : inst.voice_age_counter ≤ inst.voice_age_counter + 1 + 1))
      | exact (by omega : inst.voice_age_counter ≤ inst.voice_age_counter + 1)

theorem age_inv_note_on (inst : chiptune_instance_t) (d1 d2 : ℤ)
    (h : age_inv inst) : age_inv (handle_note_on inst d1 d2) := by
  have hkill := lead_kill_ages inst.voices inst.voice_age_counter h
  simp only [handle_note_on]
  split_ifs <;>
    first
      | exact fun v hv => release_matching_ages inst.voices _ _ h v hv
      | (first
          | (split <;>
              (intro v hv <;>
                first
                  | (rcases List.mem_or_eq_of_mem_set hv with hv1 | rfl
                     · rcases List.mem_or_eq_of_mem_set hv1 with hv2 | rfl
                       · first
                           | exact le_trans (hkill _ hv2)
                               (by omega : inst.voice_age_counter ≤ inst.voice_age_counter + 1 + 1)
                           | exact le_trans (h _ hv2)
                               (by omega : inst.voice_age_counter ≤ inst.voice_age_counter + 1 + 1)
                       · exact (by omega :
                           inst.voice_age_counter + 1 ≤ inst.voice_age_counter + 1 + 1)
                     · exact le_refl (inst.voice_age_counter + 1 + 1))
                  | (rcases List.mem_or_eq_of_mem_set hv with hv1 | rfl
                     · first
                         | exact le_trans (hkill _ hv1)
                             (by omega : inst.voice_age_counter ≤ inst.voice_age_counter + 1)
                         | exact le_trans (h _ hv1)
                             (by omega : inst.voice_age_counter ≤ inst.voice_age_counter + 1)
                     · exact le_refl (inst.voice_age_counter + 1))))
          | (intro v hv
             rcases List.mem_or_eq_of_mem_set hv with hv1 | rfl
             · first
                 | exact le_trans (hkill _ hv1)
                     (by omega : inst.voice_age_counter ≤ inst.voice_age_counter + 1)
                 | exact le_trans (h _ hv1)
                     (by omega : inst.voice_age_counter ≤ inst.voice_age_counter + 1)
             · exact le_refl (inst.voice_age_counter + 1)))

theorem age_inv_on_midi (inst : chiptune_instance_t) (msg : List ℕ)
    (h : age_inv inst) : age_inv (v2_on_midi inst msg) := by
  have hcc : ∀ d1 d2 : ℤ, age_inv (handle_cc inst d1 d2) := by
    intro d1 d2
    unfold handle_cc
    split_ifs <;>
      first
        | (intro v hv
           rcases List.mem_map.mp hv with ⟨w, hw, rfl⟩
           exact h w hw)
        | exact h
  simp only [v2_on_midi]
  split_ifs <;>
    first
      | exact h
      | exact age_inv_note_on inst _ _ h
      | exact fun v hv => release_matching_ages inst.voices _ _ h v hv
      | exact hcc _ _

theorem age_inv_step_event (pow2 sinq : ℚ → ℚ) (inst : chiptune_instance_t)
    (ev : event_t) (h : age_inv inst) : age_inv (step_event pow2 sinq inst ev) := by
  cases ev with
  | midi msg => exact age_inv_on_midi inst msg h
  | render frames cm cs =>
    simp only [step_event, v2_render_block_state]
    intro v hv
    rcases List.mem_map.mp hv with ⟨w, hw, rfl⟩
    have := h w hw
    simp only [render_step_voice]
    split_ifs <;> simpa using this

/-- C6: (i) slot selection picks the first inactive slot when one exists;
(ii) when all slots are active it picks a slot of globally minimal age
(strict LRU); (iii) ages never exceed the allocation counter, so (iv)
every voice freshly stamped by a note-on (age above the old counter) is
strictly younger than every voice that was in the pool before — steal
candidates are totally ordered, and the stolen slot's previous occupant
is replaced by the fresh voice. -/
theorem C6_slot_selection_lru :
    (∀ vs : List voice_t, (∃ v ∈ vs, v.active = false) →
      allocate_voice vs < vs.length ∧
      (vs.getD (allocate_voice vs) default).active = false ∧
      (∀ j < allocate_voice vs, (vs.getD j default).active = true)) ∧
    (∀ vs : List voice_t, (∀ v ∈ vs, v.active = true) →
      ∀ j < vs.length,
        (vs.getD (allocate_voice vs) default).age ≤ (vs.getD j default).age) ∧
    (∀ (inst : chiptune_instance_t) (d1 d2 : ℤ), age_inv inst →
      age_inv (handle_note_on inst d1 d2) ∧
      (∀ v ∈ (handle_note_on inst d1 d2).voices,
        v.age > inst.voice_age_counter →
        ∀ w ∈ inst.voices, w.age < v.age)) := by
  refine ⟨allocate_voice_first_inactive, allocate_voice_steals_oldest,
    fun inst d1 d2 h => ⟨age_inv_note_on inst d1 d2 h, ?_⟩⟩
  intro v _ hage w hw
  exact lt_of_le_of_lt (h w hw) hage

/-- Witness for C6: a pool with an inactive slot, a fully active pool,
and a concrete note-on. -/
theorem C6_slot_selection_lru_witness :
    (∃ v ∈ (mk_instance CHIP_NES preset_lead_params).voices, v.active = false) ∧
    age_inv (mk_instance CHIP_NES preset_lead_params) ∧
    (allocate_voice (mk_instance CHIP_NES preset_lead_params).voices <
        (mk_instance CHIP_NES preset_lead_params).voices.length ∧
      ((mk_instance CHIP_NES preset_lead_params).voices.getD
        (allocate_voice (mk_instance CHIP_NES preset_lead_params).voices) default).active
        = false ∧
      (∀ j < allocate_voice (mk_instance CHIP_NES preset_lead_params).voices,
        ((mk_instance CHIP_NES preset_lead_params).voices.getD j default).active = true)) ∧
    (age_inv (handle_note_on (mk_instance CHIP_NES preset_lead_params) 60 100) ∧
      (∀ v ∈ (handle_note_on (mk_instance CHIP_NES preset_lead_params) 60 100).voices,
        v.age > (mk_instance CHIP_NES preset_lead_params).voice_age_counter →
        ∀ w ∈ (mk_instance CHIP_NES preset_lead_params).voices, w.age < v.age)) :=
  ⟨by with_unfolding_all decide, by unfold age_inv; with_unfolding_all decide,
   C6_slot_selection_lru.1 _ (by with_unfolding_all decide),
   C6_slot_selection_lru.2.2 _ 60 100 (by unfold age_inv; with_unfolding_all decide)⟩

/-! ## Fresh-voice characterization (any allocation mode) -/

/-- Every voice whose age stamp exceeds the pre-note-on counter is one of
the voices freshly written by that note-on, and carries the incoming
note, an unset triggered flag and a pitch envelope initialized to the
pitch-envelope depth parameter. -/
theorem note_on_new_voice_fields (inst : chiptune_instance_t) (d1 d2 : ℤ)
    (hages : age_inv inst) :
    ∀ v ∈ (handle_note_on inst d1 d2).voices, v.age > inst.voice_age_counter →
      v.pitch_env = inst.params.pitch_env_depth ∧ v.triggered = false ∧
      v.active = true ∧
      v.note = clamp_note (d1 + c_trunc inst.params.octave_transpose * 12) := by
  have hkill := lead_kill_ages inst.voices inst.voice_age_counter hages
  simp only [handle_note_on]
  split_ifs <;>
    first
      | (intro v hv hage
         exact absurd (release_matching_ages inst.voices _ _ hages v hv) (not_le.mpr hage))
      | (first
          | (split <;>
              (intro v hv hage <;>
                first
                  | (rcases List.mem_or_eq_of_mem_set hv with hv1 | rfl
                     · rcases List.mem_or_eq_of_mem_set hv1 with hv2 | rfl
                       · first
                           | exact absurd (hkill _ hv2) (not_le.mpr hage)
                           | exact absurd (hages _ hv2) (not_le.mpr hage)
                       · exact ⟨rfl, rfl, rfl, rfl⟩
                     · exact ⟨rfl, rfl, rfl, rfl⟩)
                  | (rcases List.mem_or_eq_of_mem_set hv with hv1 | rfl
                     · first
                         | exact absurd (hkill _ hv1) (not_le.mpr hage)
                         | exact absurd (hages _ hv1) (not_le.mpr hage)
                     · exact ⟨rfl, rfl, rfl, rfl⟩)))
          | (intro v hv hage
             rcases List.mem_or_eq_of_mem_set hv with hv1 | rfl
             · first
                 | exact absurd (hkill _ hv1) (not_le.mpr hage)
                 | exact absurd (hages _ hv1) (not_le.mpr hage)
             · exact ⟨rfl, rfl, rfl, rfl⟩))

/-! ## C10: note-on with velocity zero -/

/-- C10: a note-on (status 0x90) with velocity 0 behaves exactly as a
note-off: the resulting state is identical to the one produced by a
status-0x80 message for the same note (whatever its velocity byte); no
voice is allocated (the age counter and pool size are unchanged); every
active voice whose transposed-and-clamped note matches is gated off and
immediately deactivated; every other voice is left unchanged. -/
theorem C10_velocity_zero_note_off :
    (∀ (inst : chiptune_instance_t) (n d : ℕ),
      v2_on_midi inst [0x90, n, 0] = v2_on_midi inst [0x80, n, d]) ∧
    (∀ (inst : chiptune_instance_t) (d1 : ℤ),
      (handle_note_on inst d1 0).voice_age_counter = inst.voice_age_counter ∧
      (handle_note_on inst d1 0).voices.length = inst.voices.length ∧
      (∀ i, i < inst.voices.length →
        ((inst.voices.getD i default).active = true ∧
            (inst.voices.getD i default).note =
              clamp_note (d1 + c_trunc inst.params.octave_transpose * 12) →
          (handle_note_on inst d1 0).voices.getD i default =
            { inst.voices.getD i default with
                env := env_gate_off (inst.voices.getD i default).env,
                active := false }) ∧
        (¬ ((inst.voices.getD i default).active = true ∧
            (inst.voices.getD i default).note =
              clamp_note (d1 + c_trunc inst.params.octave_transpose * 12)) →
          (handle_note_on inst d1 0).voices.getD i default =
            inst.voices.getD i default))) := by
  constructor
  · intro inst n d
    have h1 : (144 : ℕ) &&& 240 = 144 := by decide
    have h2 : (128 : ℕ) &&& 240 = 128 := by decide
    simp only [v2_on_midi]
    norm_num [h1, h2]
    simp [handle_note_on, handle_note_off]
  · intro inst d1
    have hlen : (handle_note_on inst d1 0).voices.length = inst.voices.length := by
      simp [handle_note_on, release_matching]
    refine ⟨by simp [handle_note_on], hlen, ?_⟩
    intro i hi
    have hget : (handle_note_on inst d1 0).voices.getD i default =
        (fun v : voice_t =>
          if v.active ∧ v.note = clamp_note (d1 + c_trunc inst.params.octave_transpose * 12)
          then { v with env := env_gate_off v.env, active := false } else v)
          (inst.voices.getD i default) := by
      simp only [handle_note_on, release_matching, eq_self_iff_true, if_true]
      rw [List.getD_eq_getElem _ _ (by simpa using hi), List.getD_eq_getElem _ _ hi]
      rw [List.getElem_map]
    constructor
    · intro hc
      rw [hget]
      simp only [hc.1, hc.2, and_self, if_pos, true_and]
    · intro hc
      rw [hget]
      simp only [if_neg hc]

/-- Witness for C10: on a fresh NES lead instance, note-on at velocity 0
equals note-off, and voice slot 0 (inactive, so not matching) is left
unchanged by handle_note_on with velocity 0. -/
theorem C10_velocity_zero_note_off_witness :
    (v2_on_midi (mk_instance CHIP_NES preset_lead_params) [0x90, 60, 0] =
      v2_on_midi (mk_instance CHIP_NES preset_lead_params) [0x80, 60, 77]) ∧
    ((0:ℕ) < (mk_instance CHIP_NES preset_lead_params).voices.length ∧
      ¬ ((((mk_instance CHIP_NES preset_lead_params).voices.getD 0 default).active = true) ∧
         ((mk_instance CHIP_NES preset_lead_params).voices.getD 0 default).note =
           clamp_note (60 + c_trunc
             (mk_instance CHIP_NES preset_lead_params).params.octave_transpose * 12)) ∧
      (handle_note_on (mk_instance CHIP_NES preset_lead_params) 60 0).voices.getD 0 default =
        (mk_instance CHIP_NES preset_lead_params).voices.getD 0 default) :=
  ⟨C10_velocity_zero_note_off.1 (mk_instance CHIP_NES preset_lead_params) 60 77,
   by with_unfolding_all decide,
   by with_unfolding_all decide,
   ((C10_velocity_zero_note_off.2 (mk_instance CHIP_NES preset_lead_params) 60).2.2 0
     (by with_unfolding_all decide)).2 (by with_unfolding_all decide)⟩

/-! ## C5: pitch envelope decay -/

/-- Parameters of factory preset 11 (Tri Kick): triangle channel, pitch
envelope depth 24 and speed 1. -/
def kick_params : params_t :=
  { duty := 2, env_attack := 0, env_decay := 2, env_sustain := 0, env_release := 0,
    sweep := 0, vibrato_depth := 0, vibrato_rate := 0, noise_mode := 0, wavetable := 0,
    channel_mask := 4, detune := 0, volume := 15, octave_transpose := 0, alloc_mode := 1,
    pitch_env_depth := 24, pitch_env_speed := 1 }

/-- C5, amended: the pitch-envelope level starts at the configured depth
on note-on, and each rendered block applies pitch_env_step once using the
block's frame count; while the level exceeds 0.01 and speed > 0 the block
subtracts `level / (speed * sampleRate/60) * frames`, i.e. the per-sample
rate is recomputed from the *current* level each block (a multiplicative
decay), not fixed at depth / (speed * sampleRate/60); the level is clamped
at 0, never increases, and is held when speed = 0 or level ≤ 0.01. -/
theorem C5_pitch_envelope (pow2 sinq : ℚ → ℚ) :
    (∀ (inst : chiptune_instance_t) (d1 d2 : ℤ), age_inv inst →
      ∀ v ∈ (handle_note_on inst d1 d2).voices, v.age > inst.voice_age_counter →
        v.pitch_env = inst.params.pitch_env_depth) ∧
    (∀ (cm cs : List ℤ) (inst : chiptune_instance_t) (frames : ℕ),
      (v2_render_block pow2 sinq cm cs (some inst) frames).1 =
        some { inst with
                voices := inst.voices.map
                  (render_step_voice inst.params.pitch_env_speed frames),
                lfo_phase := advance_lfo inst.params.vibrato_rate inst.lfo_phase frames }) ∧
    (∀ (v : voice_t) (ps : ℚ) (frames : ℕ), v.active = true →
      (env_process^[frames] v.env).stage ≠ ENV_IDLE →
      (render_step_voice ps frames v).pitch_env = pitch_env_step ps frames v.pitch_env) ∧
    (∀ (ps : ℚ) (frames : ℕ) (p : ℚ),
      (¬ ps > 0 → pitch_env_step ps frames p = p) ∧
      (¬ p > 1/100 → pitch_env_step ps frames p = p) ∧
      (p > 1/100 → ps > 0 →
        pitch_env_step ps frames p =
          max 0 (p - p / (ps * (SAMPLE_RATE / 60)) * (frames : ℚ))) ∧
      (0 ≤ p → 0 ≤ pitch_env_step ps frames p ∧ pitch_env_step ps frames p ≤ p)) := by
  refine ⟨?_, v2_render_block_state pow2 sinq, ?_, ?_⟩
  · intro inst d1 d2 hages v hv hage
    exact (note_on_new_voice_fields inst d1 d2 hages v hv hage).1
  · intro v ps frames hact hsurv
    simp only [render_step_voice, hact, if_pos]
    rw [if_neg hsurv]
  · intro ps frames p
    refine ⟨?_, ?_, ?_, ?_⟩
    · intro hps
      unfold pitch_env_step
      split_ifs <;> rfl
    · intro hp
      unfold pitch_env_step
      rw [if_neg hp]
    · intro hp hps
      unfold pitch_env_step
      rw [if_pos hp, if_pos hps]
      dsimp only
      rcases lt_or_le (p - p / (ps * (SAMPLE_RATE / 60)) * (frames : ℚ)) 0 with hlt | hle
      · rw [if_pos hlt, max_eq_left (le_of_lt hlt)]
      · rw [if_neg (not_lt.mpr hle), max_eq_right hle]
    · intro hp0
      simp only [pitch_env_step]
      split_ifs with h1 h2 h3
      · exact ⟨le_refl (0:ℚ), hp0⟩
      · have hnn : 0 ≤ p / (ps * (SAMPLE_RATE / 60)) * (frames : ℚ) := by
          have hden : (0:ℚ) < ps * (SAMPLE_RATE / 60) := by
            have hs : (0:ℚ) < SAMPLE_RATE / 60 := by norm_num [SAMPLE_RATE]
            exact mul_pos h2 hs
          positivity
        exact ⟨not_lt.mp h3, by linarith⟩
      · exact ⟨hp0, le_refl p⟩
      · exact ⟨hp0, le_refl p⟩

/-- Witness for C5: with Tri Kick parameters (depth 24), every voice
freshly allocated by a note-on starts at pitch-envelope level 24, and one
pitch_env_step from level 24 stays in [0, 24]. -/
theorem C5_pitch_envelope_witness :
    (∀ v ∈ (handle_note_on (mk_instance CHIP_NES kick_params) 60 100).voices,
      v.age > (mk_instance CHIP_NES kick_params).voice_age_counter →
      v.pitch_env = (mk_instance CHIP_NES kick_params).params.pitch_env_depth) ∧
    ((0:ℚ) ≤ pitch_env_step 1 128 24 ∧ pitch_env_step 1 128 24 ≤ 24) :=
  ⟨(C5_pitch_envelope (fun _ => 1) (fun _ => 0)).1 (mk_instance CHIP_NES kick_params) 60 100
      (by unfold age_inv; with_unfolding_all decide),
   ((C5_pitch_envelope (fun _ => 1) (fun _ => 0)).2.2.2 1 128 24).2.2.2 (by norm_num)⟩

/-- C5 counterexample: with depth 24, speed 15, 128-frame blocks, the
first block matches the claimed fixed rate, but the second block does
not: the decay rate is recomputed from the current level, so the level
after two blocks differs from depth - rate * (2 * frames). -/
theorem C5_counterexample :
    pitch_env_step 15 128 24 = 24 - 24 / (15 * (SAMPLE_RATE / 60)) * 128 ∧
    pitch_env_step 15 128 (pitch_env_step 15 128 24) ≠
      24 - 24 / (15 * (SAMPLE_RATE / 60)) * (128 + 128) := by
  constructor
  · norm_num [pitch_env_step, SAMPLE_RATE]
  · norm_num [pitch_env_step, SAMPLE_RATE]

/-! ## C8: rendering with no active voices -/

theorem getD_zero_of_all_zero {l : List ℤ} (h : ∀ x ∈ l, x = 0) (n : ℕ) :
    l.getD n 0 = 0 := by
  by_cases hn : n < l.length
  · rw [List.getD_eq_getElem _ _ hn]
    exact h _ (List.getElem_mem hn)
  · rw [List.getD_eq_default _ _ (le_of_not_lt hn)]

theorem c_trunc_zero : c_trunc 0 = 0 := by
  rw [c_trunc_of_nonneg le_rfl]
  exact Int.floor_zero

theorem clamp16_zero : clamp16 0 = 0 := by norm_num [clamp16]

theorem nes_output_zero (cm : List ℤ) (frames : ℕ) (h : ∀ x ∈ cm, x = 0) :
    ∀ y ∈ nes_output cm frames, y = 0 := by
  intro y hy
  simp only [nes_output, List.mem_flatten, List.mem_map] at hy
  obtain ⟨l, ⟨s, _, rfl⟩, hyl⟩ := hy
  have h0 : cm.getD s 0 = 0 := getD_zero_of_all_zero h s
  have hc : clamp16 (cm.getD s 0 * 6) = 0 := by
    rw [h0]
    norm_num [clamp16]
  split_ifs at hyl <;>
    · simp only [hc, List.mem_cons, List.mem_singleton, List.not_mem_nil, or_false] at hyl
      tauto

theorem gb_output_zero (cs : List ℤ) (frames : ℕ) (scale : ℚ) (h : ∀ x ∈ cs, x = 0) :
    ∀ y ∈ gb_output cs frames scale, y = 0 := by
  intro y hy
  simp only [gb_output, List.mem_flatten, List.mem_map] at hy
  obtain ⟨l, ⟨s, _, rfl⟩, hyl⟩ := hy
  have h0 : clamp16 (c_trunc ((cs.getD (2 * s) 0 : ℚ) * 6 * scale)) = 0 := by
    rw [getD_zero_of_all_zero h]
    rw [show (((0:ℤ):ℚ) * 6 * scale) = 0 by push_cast; ring]
    rw [c_trunc_zero]
    exact clamp16_zero
  have h1 : clamp16 (c_trunc ((cs.getD (2 * s + 1) 0 : ℚ) * 6 * scale)) = 0 := by
    rw [getD_zero_of_all_zero h]
    rw [show (((0:ℤ):ℚ) * 6 * scale) = 0 by push_cast; ring]
    rw [c_trunc_zero]
    exact clamp16_zero
  split_ifs at hyl <;>
    · simp only [h0, h1, List.mem_cons, List.mem_singleton, List.not_mem_nil, or_false] at hyl
      tauto

theorem length_flatten_pairs {α : Type} (f : ℕ → List α) (n : ℕ)
    (hf : ∀ s, (f s).length = 2) :
    (((List.range n).map f).flatten).length = 2 * n := by
  induction n with
  | zero => simp
  | succ n ih =>
    rw [List.range_succ, List.map_append, List.flatten_append]
    simp only [List.length_append, ih, List.map_cons, List.map_nil, List.flatten_cons,
      List.flatten_nil, List.append_nil, hf]
    omega

theorem nes_output_length (cm : List ℤ) (frames : ℕ) :
    (nes_output cm frames).length = 2 * frames := by
  simp only [nes_output]
  exact length_flatten_pairs _ frames (fun s => by split_ifs <;> rfl)

theorem gb_output_length (cs : List ℤ) (frames : ℕ) (scale : ℚ) :
    (gb_output cs frames scale).length = 2 * frames := by
  simp only [gb_output]
  exact length_flatten_pairs _ frames (fun s => by split_ifs <;> rfl)

/-- C8, amended: a render call always overwrites the whole 2*frames-sample
output buffer, and with no active voice the buffer contains only the
opaque chip core's PCM scaled by 6 (NES) or 6 x envelope scale (GB), so
it is all-zero provided the PCM the core returns for the block is
all-zero.  (Without that proviso the claim is false: the core keeps
band-limited synthesis state across blocks, see the counterexample.) -/
theorem C8_silent_render (pow2 sinq : ℚ → ℚ) :
    (∀ (cm cs : List ℤ) (inst : chiptune_instance_t) (frames : ℕ),
      (∀ v ∈ inst.voices, v.active = false) →
      (∀ x ∈ cm, x = 0) → (∀ x ∈ cs, x = 0) →
      ∀ y ∈ (v2_render_block pow2 sinq cm cs (some inst) frames).2.2, y = 0) ∧
    (∀ (cm cs : List ℤ) (inst : chiptune_instance_t) (frames : ℕ),
      ((v2_render_block pow2 sinq cm cs (some inst) frames).2.2).length = 2 * frames) := by
  constructor
  · intro cm cs inst frames _ hcm hcs
    by_cases hchip : inst.chip = CHIP_NES
    · simp only [v2_render_block, hchip, if_pos]
      exact nes_output_zero cm frames hcm
    · simp only [v2_render_block, if_neg hchip]
      exact gb_output_zero cs frames _ hcs
  · intro cm cs inst frames
    by_cases hchip : inst.chip = CHIP_NES
    · simp only [v2_render_block, hchip, if_pos]
      exact nes_output_length cm frames
    · simp only [v2_render_block, if_neg hchip]
      exact gb_output_length cs frames _

/-- Witness for C8: a fresh silent instance, an all-zero 1-sample core
buffer, one frame. -/
theorem C8_silent_render_witness :
    (∀ v ∈ (mk_instance CHIP_NES preset_lead_params).voices, v.active = false) ∧
    (∀ y ∈ (v2_render_block (fun _ => 1) (fun _ => 0) [0] [0, 0]
        (some (mk_instance CHIP_NES preset_lead_params)) 1).2.2, y = 0) :=
  ⟨by with_unfolding_all decide,
   (C8_silent_render (fun _ => 1) (fun _ => 0)).1 [0] [0, 0]
     (mk_instance CHIP_NES preset_lead_params) 1
     (by with_unfolding_all decide) (by with_unfolding_all decide)
     (by with_unfolding_all decide)⟩

/-- C8 counterexample: with no active voice at all, a render call copies
the chip core's residual PCM into the buffer: if the NES core hands back
the sample 100, the output buffer is [600, 600], not all zeros. -/
theorem C8_counterexample :
    active_count (mk_instance CHIP_NES preset_lead_params).voices = 0 ∧
    (v2_render_block (fun _ => 1) (fun _ => 0) [100] []
      (some (mk_instance CHIP_NES preset_lead_params)) 1).2.2 = [600, 600] ∧
    (600 : ℤ) ≠ 0 := by
  with_unfolding_all decide

/-! ## C4: hardware volume values -/

instance : Inhabited reg_write_t := ⟨⟨0, 0, 0⟩⟩

/-- Modelled from the spec's words (section 4.4): "the quantized product of
the block-sampled envelope level, the volume parameter, and velocity
(integer-scaled to the chip's 4-bit volume range, clamped to [0,15])". -/
def spec_block_volume (level : ℚ) (vol vel : ℤ) : ℤ :=
  min 15 (max 0 (c_trunc (level * (vol : ℚ) * (vel : ℚ) / 127 + 1/2)))

/-- C4, amended: on the NES, the volume nibble written each block encodes
nes_apu_vol of the block-start envelope level — a two-stage integer
scaling: round(level * volume) clamped to [0,15], then * velocity / 127
in integer division, clamped to [0,15].  On the GB the volume nibble is
written only on the trigger block and equals gb_vol_calc =
round(volume * velocity / 127) clamped to [1,15]; the envelope level is
not part of it (it scales the PCM output instead). -/
theorem C4_block_volume (pow2 sinq : ℚ → ℚ) :
    (∀ (inst : chiptune_instance_t) (frames : ℕ) (t : ℤ) (v : voice_t),
      v.active = true → (env_process^[frames] v.env).stage ≠ ENV_IDLE →
      v.channel_type = CHAN_PULSE1 →
      (nes_voice_writes pow2 sinq inst frames t v).getD 0 default =
        ⟨t, 0x4000, (((c_trunc inst.params.duty % 4).toNat) <<< 6) ||| 0x30 |||
          ((nes_apu_vol v.env.level (c_trunc inst.params.volume) v.velocity % 16).toNat)⟩) ∧
    (∀ (level : ℚ) (vol vel : ℤ), 0 ≤ vel →
      0 ≤ nes_apu_vol level vol vel ∧ nes_apu_vol level vol vel ≤ 15 ∧
      nes_apu_vol level vol vel =
        min 15 (Int.tdiv (min 15 (max 0 (c_trunc (level * (vol : ℚ) + 1/2))) * vel) 127)) ∧
    (∀ (inst : chiptune_instance_t) (frames : ℕ) (t : ℤ) (v : voice_t),
      v.active = true → (env_process^[frames] v.env).stage ≠ ENV_IDLE →
      v.channel_idx = 0 → v.triggered = false →
      (gb_voice_writes pow2 sinq inst frames t v).getD 0 default =
        ⟨t, 0xFF12, (((gb_vol_calc (c_trunc inst.params.volume) v.velocity % 16).toNat) <<< 4)⟩) ∧
    (∀ (vol vel : ℤ), 1 ≤ gb_vol_calc vol vel ∧ gb_vol_calc vol vel ≤ 15) := by
  refine ⟨?_, ?_, ?_, ?_⟩
  · intro inst frames t v hact hsurv hct
    simp only [nes_voice_writes, hact, if_pos, if_neg hsurv, hct]
    norm_num [CHAN_PULSE1, nes_write_pulse, List.getD]
  · intro level vol vel hvel
    have harg : level * (vol : ℚ) / 15 * 15 + 1/2 = level * (vol : ℚ) + 1/2 := by
      field_simp
    simp only [nes_apu_vol, harg]
    set a := c_trunc (level * (vol : ℚ) + 1/2) with ha
    have hclamp : (if (if a > 15 then 15 else a) < 0 then 0
        else (if a > 15 then 15 else a)) = min 15 (max 0 a) := by
      split_ifs <;> omega
    rw [hclamp]
    have htd : 0 ≤ Int.tdiv (min 15 (max 0 a) * vel) 127 :=
      Int.tdiv_nonneg (mul_nonneg (by omega) hvel) (by norm_num)
    generalize Int.tdiv (min 15 (max 0 a) * vel) 127 = q at htd ⊢
    refine ⟨?_, ?_, ?_⟩
    · split_ifs <;> omega
    · split_ifs <;> omega
    · split_ifs <;> omega
  · intro inst frames t v hact hsurv hch htrig
    simp only [gb_voice_writes, hact, if_pos, if_neg hsurv, hch, htrig]
    norm_num [gb_write_square1, List.getD]
  · intro vol vel
    simp only [gb_vol_calc]
    constructor <;> (split_ifs <;> omega)

/-- Parameters for the C4 GB counterexample: preset 0 but with a slow
attack (15), so a freshly gated voice still has envelope level 0 at the
start of its first rendered block while surviving it. -/
def gb_pad_params : params_t :=
  { preset_lead_params with env_attack := 15 }

/-- The instance state right after note-on (note 60, velocity 127) on a
fresh GB instance with gb_pad_params, written out literally. -/
def gb_test_inst : chiptune_instance_t :=
  { chip := CHIP_GB,
    voices :=
      [{ active := true, note := 60, velocity := 127, channel_idx := 0, channel_type := 0,
         age := 1, triggered := false,
         env := { level := 0, stage := ENV_ATTACK, attack_inc := 1/11025,
                  decay_dec := 1/8820, sustain_level := 1, release_dec := 1/11760 },
         pitch_env := 0 },
       default, default, default, default],
    voice_age_counter := 1, lfo_phase := 0, pitch_bend_semitones := 0,
    params := gb_pad_params }

/-- C4 counterexample: on the GB, an active voice with block-start
envelope level 0 (volume 15, velocity 127) gets hardware volume nibble 15
(write value 0xF0 to NR12), whereas the spec's product of envelope level,
volume and velocity is 0: the GB volume write ignores the envelope. -/
theorem C4_counterexample :
    gb_test_inst = v2_on_midi (mk_instance CHIP_GB gb_pad_params) [0x90, 60, 127] ∧
    (gb_test_inst.voices.getD 0 default).env.level = 0 ∧
    (gb_test_inst.voices.getD 0 default).active = true ∧
    (v2_render_block (fun _ => 1) (fun _ => 0) [] []
        (some gb_test_inst) 2).2.1.getD 0 default = ⟨0, 0xFF12, 0xF0⟩ ∧
    spec_block_volume 0 15 127 = 0 ∧
    (0xF0 : ℕ) ≠ ((spec_block_volume 0 15 127).toNat <<< 4) := by
  refine ⟨?_, ?_, ?_, ?_, ?_, ?_⟩
  · with_unfolding_all rfl
  · with_unfolding_all decide
  · with_unfolding_all decide
  · with_unfolding_all rfl
  · with_unfolding_all decide
  · with_unfolding_all decide

/-- Witness for C4: concrete volume computations at level 1/2, volume 15,
velocity 100. -/
theorem C4_block_volume_witness :
    ((0:ℤ) ≤ 100) ∧
    (0 ≤ nes_apu_vol (1/2) 15 100 ∧ nes_apu_vol (1/2) 15 100 ≤ 15 ∧
      nes_apu_vol (1/2) 15 100 =
        min 15 (Int.tdiv (min 15 (max 0 (c_trunc ((1/2) * (15 : ℚ) + 1/2))) * 100) 127)) ∧
    (1 ≤ gb_vol_calc 15 100 ∧ gb_vol_calc 15 100 ≤ 15) :=
  ⟨by norm_num,
   (C4_block_volume (fun _ => 1) (fun _ => 0)).2.1 (1/2) 15 100 (by norm_num),
   (C4_block_volume (fun _ => 1) (fun _ => 0)).2.2.2 15 100⟩

/-! ## C3: trigger-only register writes -/

/-- The NES register addresses that the encoders only ever write together
with the trigger flag: the sweep registers (0x4001/0x4005, written 0x00 on
trigger) and the frequency-high/length-reload registers (0x4003/0x4007 for
the pulses, 0x400B for the triangle, 0x400F for the noise). -/
def nes_trigger_addr (a : ℕ) : Prop :=
  a = 0x4001 ∨ a = 0x4003 ∨ a = 0x4005 ∨ a = 0x4007 ∨ a = 0x400B ∨ a = 0x400F

instance (a : ℕ) : Decidable (nes_trigger_addr a) := by
  unfold nes_trigger_addr; infer_instance

theorem nes_silence_channel_no_trigger (ch t : ℤ) :
    ∀ w ∈ nes_silence_channel ch t, ¬ nes_trigger_addr w.addr := by
  intro w hw
  simp only [nes_silence_channel] at hw
  split_ifs at hw <;>
    first
      | exact absurd hw (List.not_mem_nil w)
      | (rw [List.mem_singleton] at hw; subst hw; norm_num [nes_trigger_addr])

theorem nes_write_pulse_no_trigger (ch t duty vol : ℤ) (freq : ℚ) :
    ∀ w ∈ nes_write_pulse ch t duty vol freq false, ¬ nes_trigger_addr w.addr := by
  intro w hw
  simp only [nes_write_pulse, Bool.false_eq_true, if_false, List.append_nil] at hw
  split_ifs at hw <;>
    (simp only [List.mem_cons, List.not_mem_nil, or_false] at hw;
     rcases hw with rfl | rfl <;> norm_num [nes_trigger_addr])

theorem nes_write_triangle_no_trigger (t : ℤ) (gate : Bool) (freq : ℚ) :
    ∀ w ∈ nes_write_triangle t gate freq false, ¬ nes_trigger_addr w.addr := by
  intro w hw
  simp only [nes_write_triangle, Bool.false_eq_true, if_false, List.append_nil,
    List.mem_cons, List.not_mem_nil, or_false] at hw
  rcases hw with rfl | rfl <;> norm_num [nes_trigger_addr]

theorem nes_write_noise_no_trigger (t vol note : ℤ) (short_mode : Bool) :
    ∀ w ∈ nes_write_noise t vol note short_mode false, ¬ nes_trigger_addr w.addr := by
  intro w hw
  simp only [nes_write_noise, Bool.false_eq_true, if_false, List.append_nil,
    List.mem_cons, List.not_mem_nil, or_false] at hw
  rcases hw with rfl | rfl <;> norm_num [nes_trigger_addr]

theorem nes_voice_writes_no_trigger (pow2 sinq : ℚ → ℚ) (inst : chiptune_instance_t)
    (frames : ℕ) (t : ℤ) (v : voice_t) (h : v.active = true → v.triggered = true) :
    ∀ w ∈ nes_voice_writes pow2 sinq inst frames t v, ¬ nes_trigger_addr w.addr := by
  intro w hw
  by_cases hact : v.active = true
  · have htrig := h hact
    simp only [nes_voice_writes, hact, if_pos, htrig, Bool.not_true] at hw
    split_ifs at hw <;>
      first
        | exact nes_silence_channel_no_trigger _ _ w hw
        | exact nes_write_pulse_no_trigger _ _ _ _ _ w hw
        | exact nes_write_triangle_no_trigger _ _ _ w hw
        | exact nes_write_noise_no_trigger _ _ _ _ w hw
        | exact absurd hw (List.not_mem_nil w)
  · simp only [nes_voice_writes, if_neg hact] at hw
    exact absurd hw (List.not_mem_nil w)

theorem nes_silence_fold_no_trigger (voices : List voice_t) (l : List ℕ)
    (acc : ℤ × List reg_write_t) (hacc : ∀ w ∈ acc.2, ¬ nes_trigger_addr w.addr) :
    ∀ w ∈ (l.foldl (fun (acc : ℤ × List reg_write_t) (ch : ℕ) =>
        if voice_in_use voices (ch : ℤ) then acc
        else (acc.1 + 2, acc.2 ++ nes_silence_channel (ch : ℤ) acc.1)) acc).2,
      ¬ nes_trigger_addr w.addr := by
  induction l generalizing acc with
  | nil => exact hacc
  | cons c cs ih =>
    refine ih _ ?_
    show ∀ w ∈ (if voice_in_use voices (c : ℤ) then acc
        else (acc.1 + 2, acc.2 ++ nes_silence_channel (c : ℤ) acc.1)).2,
      ¬ nes_trigger_addr w.addr
    split_ifs with h
    · exact hacc
    · intro w hw
      rcases List.mem_append.mp hw with h1 | h2
      · exact hacc w h1
      · exact nes_silence_channel_no_trigger _ _ w h2

theorem nes_silence_unused_no_trigger (voices : List voice_t) (t : ℤ) :
    ∀ w ∈ (nes_silence_unused voices t).2, ¬ nes_trigger_addr w.addr := by
  simp only [nes_silence_unused]
  exact nes_silence_fold_no_trigger voices (List.range 4) (t, [])
    (by intro w hw; exact absurd hw (List.not_mem_nil w))

theorem nes_render_voices_no_trigger (pow2 sinq : ℚ → ℚ) (inst : chiptune_instance_t)
    (frames : ℕ) (t : ℤ) (vs : List voice_t)
    (h : ∀ v ∈ vs, v.active = true → v.triggered = true) :
    ∀ w ∈ (nes_render_voices pow2 sinq inst frames t vs).2.2, ¬ nes_trigger_addr w.addr := by
  induction vs generalizing t with
  | nil =>
    intro w hw
    simp only [nes_render_voices] at hw
    exact absurd hw (List.not_mem_nil w)
  | cons v vs ih =>
    intro w hw
    simp only [nes_render_voices] at hw
    rcases List.mem_append.mp hw with h1 | h2
    · exact nes_voice_writes_no_trigger pow2 sinq inst frames t v
        (h v (List.mem_cons_self v vs)) w h1
    · exact ih _ (fun u hu => h u (List.mem_cons_of_mem v hu)) w h2

/-- C3, amended: a freshly allocated voice starts with triggered = false;
after a render block every voice still active has triggered = true, and a
block rendered while every active voice is already triggered emits no
trigger-only write at all, so the trigger-only sequence is sent at most
once per note — on the voice's first render block, and only if the
envelope is still live at the end of that block (a pulse1 voice then gets
exactly the two trigger-only writes, to 0x4001 and 0x4003).  "Exactly
once" is false: if the envelope reaches Idle within the first block the
voice is silenced and deactivated with triggered still false, and the
trigger-only writes are never emitted for that note. -/
theorem C3_trigger_once (pow2 sinq : ℚ → ℚ) :
    (∀ (inst : chiptune_instance_t) (d1 d2 : ℤ), age_inv inst →
      ∀ v ∈ (handle_note_on inst d1 d2).voices, v.age > inst.voice_age_counter →
        v.triggered = false) ∧
    (∀ (ps : ℚ) (frames : ℕ) (v : voice_t),
      (render_step_voice ps frames v).active = true →
      (render_step_voice ps frames v).triggered = true) ∧
    (∀ (inst : chiptune_instance_t) (frames : ℕ) (t : ℤ) (v : voice_t),
      v.active = true → (env_process^[frames] v.env).stage ≠ ENV_IDLE →
      v.channel_type = CHAN_PULSE1 → v.triggered = false →
      (nes_voice_writes pow2 sinq inst frames t v).filter
          (fun w => decide (nes_trigger_addr w.addr)) =
        [⟨t + 2, 0x4001, 0x00⟩,
         ⟨t + 3, 0x4003, 0xF8 |||
           (((nes_pulse_period (voice_freq pow2 sinq inst v)).toNat >>> 8) &&& 0x07)⟩]) ∧
    (∀ (inst : chiptune_instance_t) (cm cs : List ℤ) (frames : ℕ),
      inst.chip = CHIP_NES →
      (∀ v ∈ inst.voices, v.active = true → v.triggered = true) →
      ∀ w ∈ (v2_render_block pow2 sinq cm cs (some inst) frames).2.1,
        ¬ nes_trigger_addr w.addr) := by
  refine ⟨?_, ?_, ?_, ?_⟩
  · intro inst d1 d2 hages v hv hage
    exact (note_on_new_voice_fields inst d1 d2 hages v hv hage).2.1
  · intro ps frames v
    simp only [render_step_voice]
    split_ifs with h1 h2
    · intro hcon; simp at hcon
    · intro _; rfl
    · intro hcon; exact absurd hcon h1
  · intro inst frames t v hact hsurv hct htrig
    simp only [nes_voice_writes, hact, if_pos, if_neg hsurv, hct, htrig, Bool.not_false]
    norm_num [CHAN_PULSE1, nes_write_pulse, List.filter_cons, List.filter_nil,
      decide_eq_true_eq, nes_trigger_addr]
  · intro inst cm cs frames hchip hvt w hw
    rcases hnr : nes_render_voices pow2 sinq inst frames 1 inst.voices with ⟨voices1, t1, ws⟩
    simp only [v2_render_block, hchip, eq_self_iff_true, if_true, hnr,
      List.mem_cons, List.mem_append] at hw
    rcases hw with rfl | hw | hw
    · norm_num [nes_trigger_addr]
    · have hh := nes_render_voices_no_trigger pow2 sinq inst frames 1 inst.voices hvt w
      rw [hnr] at hh
      exact hh hw
    · exact nes_silence_unused_no_trigger voices1 t1 w hw

/-- The instance state right after note-on (note 60, velocity 100) on a
fresh NES lead instance, and its first voice. -/
def nes_note_inst : chiptune_instance_t :=
  handle_note_on (mk_instance CHIP_NES preset_lead_params) 60 100

def nes_note_voice : voice_t :=
  nes_note_inst.voices.getD 0 default

/-- Witness for C3: each conjunct of the theorem applied at a concrete
state — the fresh NES lead note-on instance, its first voice (active,
pulse1, untriggered, envelope surviving two frames), and a render of a
fresh all-inactive instance. -/
theorem C3_trigger_once_witness :
    (age_inv (mk_instance CHIP_NES preset_lead_params) ∧
      (∀ v ∈ (handle_note_on (mk_instance CHIP_NES preset_lead_params) 60 100).voices,
        v.age > (mk_instance CHIP_NES preset_lead_params).voice_age_counter →
        v.triggered = false)) ∧
    ((render_step_voice 0 2 nes_note_voice).active = true ∧
      (render_step_voice 0 2 nes_note_voice).triggered = true) ∧
    ((nes_note_voice.active = true ∧
        (env_process^[2] nes_note_voice.env).stage ≠ ENV_IDLE ∧
        nes_note_voice.channel_type = CHAN_PULSE1 ∧ nes_note_voice.triggered = false) ∧
      (nes_voice_writes (fun _ => 1) (fun _ => 0) nes_note_inst 2 1 nes_note_voice).filter
          (fun w => decide (nes_trigger_addr w.addr)) =
        [⟨(1:ℤ) + 2, 0x4001, 0x00⟩,
         ⟨(1:ℤ) + 3, 0x4003, 0xF8 |||
           (((nes_pulse_period (voice_freq (fun _ => 1) (fun _ => 0) nes_note_inst
               nes_note_voice)).toNat >>> 8) &&& 0x07)⟩]) ∧
    ((mk_instance CHIP_NES preset_lead_params).chip = CHIP_NES ∧
      (∀ v ∈ (mk_instance CHIP_NES preset_lead_params).voices,
        v.active = true → v.triggered = true) ∧
      (∀ w ∈ (v2_render_block (fun _ => 1) (fun _ => 0) [] []
          (some (mk_instance CHIP_NES preset_lead_params)) 2).2.1,
        ¬ nes_trigger_addr w.addr)) := by
  have hage : age_inv (mk_instance CHIP_NES preset_lead_params) := by
    unfold age_inv; with_unfolding_all decide
  have h2a : (render_step_voice 0 2 nes_note_voice).active = true := by
    with_unfolding_all decide
  have h3a : nes_note_voice.active = true := by with_unfolding_all decide
  have h3b : (env_process^[2] nes_note_voice.env).stage ≠ ENV_IDLE := by
    with_unfolding_all decide
  have h3c : nes_note_voice.channel_type = CHAN_PULSE1 := by with_unfolding_all decide
  have h3d : nes_note_voice.triggered = false := by with_unfolding_all decide
  have h4a : (mk_instance CHIP_NES preset_lead_params).chip = CHIP_NES := by
    with_unfolding_all decide
  have h4b : ∀ v ∈ (mk_instance CHIP_NES preset_lead_params).voices,
      v.active = true → v.triggered = true := by with_unfolding_all decide
  exact ⟨⟨hage, (C3_trigger_once (fun _ => 1) (fun _ => 0)).1 _ 60 100 hage⟩,
    ⟨h2a, (C3_trigger_once (fun _ => 1) (fun _ => 0)).2.1 0 2 nes_note_voice h2a⟩,
    ⟨⟨h3a, h3b, h3c, h3d⟩,
      (C3_trigger_once (fun _ => 1) (fun _ => 0)).2.2.1 nes_note_inst 2 1 nes_note_voice
        h3a h3b h3c h3d⟩,
    ⟨h4a, h4b,
      (C3_trigger_once (fun _ => 1) (fun _ => 0)).2.2.2
        (mk_instance CHIP_NES preset_lead_params) [] [] 2 h4a h4b⟩⟩

/-- Lead preset with decay, sustain and release all 0: the envelope jumps
to 1 on the first sample and collapses to Idle on the second. -/
def pluck0_params : params_t :=
  { preset_lead_params with env_decay := 0, env_sustain := 0, env_release := 0 }

/-- The instance right after note-on (note 69, velocity 100) on a fresh
NES instance with pluck0_params. -/
def nes_dead_inst : chiptune_instance_t :=
  v2_on_midi (mk_instance CHIP_NES pluck0_params) [0x90, 69, 100]

/-- C3 counterexample: with decay = sustain = 0 the voice allocated by a
note-on is active and untriggered, yet its first (2-frame) render block
emits no trigger-only write at all — the envelope reaches Idle inside the
block, the channel is silenced, and the voice comes out deactivated with
triggered still false.  The trigger-only sequence is never sent for this
note, refuting "exactly once per note". -/
theorem C3_counterexample :
    ((nes_dead_inst.voices.getD 0 default).active = true ∧
      (nes_dead_inst.voices.getD 0 default).triggered = false) ∧
    ((v2_render_block (fun _ => 1) (fun _ => 0) [] [] (some nes_dead_inst) 2).2.1.filter
        (fun w => decide (nes_trigger_addr w.addr))).length = 0 ∧
    (((v2_render_block (fun _ => 1) (fun _ => 0) [] [] (some nes_dead_inst) 2).1.getD
        nes_dead_inst).voices.getD 0 default).active = false ∧
    (((v2_render_block (fun _ => 1) (fun _ => 0) [] [] (some nes_dead_inst) 2).1.getD
        nes_dead_inst).voices.getD 0 default).triggered = false := by
  refine ⟨?_, ?_, ?_, ?_⟩
  · with_unfolding_all decide
  · with_unfolding_all rfl
  · with_unfolding_all rfl
  · with_unfolding_all rfl

end Chiptune
